import Mathlib

/-!
# Infinitive-Enhanced: telemetry cache and scheduled retention pipeline

A shallow embedding of `infinitive.go` (event decoders, the append job, the
rotation job with its reconstruction loop, the index builder) together with
the properties of the specification that concern them.

Conventions of the embedding:
* a Go `string` is the list of its bytes (`GoString`); every fixed-offset
  field the program reads or writes is ASCII, so a byte is written as a `Char`;
* a Go run-time panic (index or slice bound out of range) is `none`;
* Go `int` values are `Int` (no arithmetic here can overflow 64 bits).
-/

namespace Infinitive

/-! ## Go strings, slicing and `strconv.Atoi` -/

/-- A Go string, as the sequence of its bytes. -/
abbrev GoString := List Char

/-- The slice expression `s[lo:hi]` on a string: panics unless `lo ≤ hi ≤ len(s)`. -/
def slice (s : GoString) (lo hi : Nat) : Option GoString :=
  if lo ≤ hi ∧ hi ≤ s.length then some ((s.drop lo).take (hi - lo)) else none

/-- Value of a decimal digit byte, `none` for any other byte. -/
def digitVal (c : Char) : Option Nat :=
  if 48 ≤ c.toNat ∧ c.toNat ≤ 57 then some (c.toNat - 48) else none

/-- The digit loop of `strconv.Atoi`: `n = n*10 + digit`, a syntax error on a non-digit. -/
def atoiDigits : GoString → Nat → Option Nat
  | [], acc => some acc
  | c :: cs, acc =>
    match digitVal c with
    | some d => atoiDigits cs (acc * 10 + d)
    | none => none

/-- The call `strconv.Atoi(s)` with its error discarded, as the program uses it: the
parsed value, or `0` when Atoi reports a syntax error.  This is the fast path of
Atoi, taken for every input shorter than 19 bytes (the program passes 4 bytes). -/
def atoi (s : GoString) : Int :=
  match s with
  | [] => 0
  | c :: rest =>
    if c = '-' then
      (match rest with
       | [] => 0
       | _ => match atoiDigits rest 0 with
              | some n => - (n : Int)
              | none => 0)
    else if c = '+' then
      (match rest with
       | [] => 0
       | _ => match atoiDigits rest 0 with
              | some n => (n : Int)
              | none => 0)
    else
      match atoiDigits (c :: rest) 0 with
      | some n => (n : Int)
      | none => 0

/-! ## The buffers of the rotation job -/

/-- Length of `dayf`, `inTmp`, `outTmp` and `motRPM`: each is `make([]T, 2000)`. -/
def bufCap : Nat := 2000

/-- A slice of length `bufCap`; only the elements `0 .. bufCap-1` exist. -/
structure Buf (α : Type) where
  elem : Nat → α

/-- The read `b[i]`: panics outside `0 ≤ i < 2000`. -/
def Buf.read {α : Type} (b : Buf α) (i : Int) : Option α :=
  if 0 ≤ i ∧ i < (bufCap : Int) then some (b.elem i.toNat) else none

/-- The assignment `b[i] = v`: panics outside `0 ≤ i < 2000`. -/
def Buf.write {α : Type} (b : Buf α) (i : Int) (v : α) : Option (Buf α) :=
  if 0 ≤ i ∧ i < (bufCap : Int) then
    some ⟨fun j => if j = i.toNat then v else b.elem j⟩
  else none

/-- The slice expression `b[0:hi]` on a buffer: panics unless `0 ≤ hi ≤ 2000`. -/
def Buf.upTo {α : Type} (b : Buf α) (hi : Int) : Option (List α) :=
  if 0 ≤ hi ∧ hi ≤ (bufCap : Int) then some ((List.range hi.toNat).map b.elem) else none

/-- The slice expression `xs[0:hi]` on an appended slice: the bound is checked
against the capacity, which is at least the length; within the length this is
`take`.  Panics when `hi` is negative. -/
def itemsUpTo {α : Type} (xs : List α) (hi : Int) : Option (List α) :=
  if 0 ≤ hi ∧ hi ≤ (xs.length : Int) then some (xs.take hi.toNat) else none

/-- Fan-speed bucketing of `motRPM[index]` (the `if / else if` chain of cron job 2). -/
def fanBucket (r : Int) : Int :=
  if r < 200 then 0
  else if r < 550 then 34
  else if r < 750 then 66
  else 100

/-- State of the reconstruction loop of cron job 2: the four buffers allocated in
`main`, the global `index`, and the three `items` slices. -/
structure ScanState (F : Type) where
  dayf   : Buf F
  inTmp  : Buf Int
  outTmp : Buf Int
  motRPM : Buf Int
  index  : Int
  items1 : List Int
  items2 : List Int
  items3 : List Int

/-- State at the top of the reconstruction: `index = 0`, empty `items`; the buffers
are whatever the previous invocation left (they are allocated once in `main`). -/
def ScanState.start {F : Type} (dayf : Buf F) (inTmp outTmp motRPM : Buf Int) : ScanState F :=
  { dayf := dayf, inTmp := inTmp, outTmp := outTmp, motRPM := motRPM,
    index := 0, items1 := [], items2 := [], items3 := [] }

/-- Forward fill of `outTmp[index]` / `inTmp[index]`: when the stored value is zero or
above the ceiling it is overwritten with the element at `index-1`. -/
def fillPrev (b : Buf Int) (index : Int) (ceiling : Int) : Option (Buf Int) :=
  (b.read index).bind fun v =>
  if v = 0 ∨ v > ceiling then
    (b.read (index - 1)).bind fun p => b.write index p
  else
    some b

/-- Lines 360-361: `f64, err = strconv.ParseFloat(s2[20:29], 32); dayf[index] = float32(f64)`.
`parseFloat` stands for `float32(strconv.ParseFloat(·, 32))`. -/
def stepDayf {F : Type} (parseFloat : GoString → F) (st : ScanState F) (s2 : GoString) :
    Option (ScanState F) :=
  match slice s2 20 29 with
  | none => none
  | some f =>
    match st.dayf.write st.index (parseFloat f) with
    | none => none
    | some dayf => some { st with dayf := dayf }

/-- Lines 363-366: `outTmp[index], err = strconv.Atoi(s2[40:44])` and its forward fill. -/
def stepOut {F : Type} (st : ScanState F) (s2 : GoString) : Option (ScanState F) :=
  match slice s2 40 44 with
  | none => none
  | some fo =>
    match st.outTmp.write st.index (atoi fo) with
    | none => none
    | some outTmp0 =>
      match fillPrev outTmp0 st.index 130 with
      | none => none
      | some outTmp => some { st with outTmp := outTmp }

/-- Lines 367-370: `inTmp[index], err = strconv.Atoi(s2[45:49])` and its forward fill. -/
def stepIn {F : Type} (st : ScanState F) (s2 : GoString) : Option (ScanState F) :=
  match slice s2 45 49 with
  | none => none
  | some fi =>
    match st.inTmp.write st.index (atoi fi) with
    | none => none
    | some inTmp0 =>
      match fillPrev inTmp0 st.index 110 with
      | none => none
      | some inTmp => some { st with inTmp := inTmp }

/-- Lines 371-381: `motRPM[index], err = strconv.Atoi(s2[50:54])` and the bucketing. -/
def stepRPM {F : Type} (st : ScanState F) (s2 : GoString) : Option (ScanState F) :=
  match slice s2 50 54 with
  | none => none
  | some fr =>
    match st.motRPM.write st.index (atoi fr) with
    | none => none
    | some motRPM0 =>
      match motRPM0.read st.index with
      | none => none
      | some r =>
        match motRPM0.write st.index (fanBucket r) with
        | none => none
        | some motRPM => some { st with motRPM := motRPM }

/-- Lines 382-385: the three `append` calls and `index++`. -/
def stepItems {F : Type} (st : ScanState F) : Option (ScanState F) :=
  match st.inTmp.read st.index, st.outTmp.read st.index, st.motRPM.read st.index with
  | some vi, some vo, some vm =>
    some { st with index := st.index + 1,
                   items1 := st.items1 ++ [vi],
                   items2 := st.items2 ++ [vo],
                   items3 := st.items3 ++ [vm] }
  | _, _, _ => none

/-- Body of the `for filescan.Scan()` loop for one data line `s2` (a line that does not
start with `D`), statement by statement. -/
def scanData {F : Type} (parseFloat : GoString → F) (st : ScanState F) (s2 : GoString) :
    Option (ScanState F) :=
  match stepDayf parseFloat st s2 with
  | none => none
  | some st1 =>
    match stepOut st1 s2 with
    | none => none
    | some st2 =>
      match stepIn st2 s2 with
      | none => none
      | some st3 =>
        match stepRPM st3 s2 with
        | none => none
        | some st4 => stepItems st4

/-- Body of the `for filescan.Scan()` loop for one line `s2` of the archive: `s2[0]`
panics on an empty line, header lines (first byte `D`) are skipped. -/
def scanLine {F : Type} (parseFloat : GoString → F) (st : ScanState F) (s2 : GoString) :
    Option (ScanState F) :=
  match s2 with
  | [] => none
  | c0 :: _ => if c0 = 'D' then some st else scanData parseFloat st s2

/-- The whole `for filescan.Scan()` loop over the lines of the archive. -/
def scanLines {F : Type} (parseFloat : GoString → F) :
    ScanState F → List GoString → Option (ScanState F)
  | st, [] => some st
  | st, s2 :: rest =>
    match scanLine parseFloat st s2 with
    | some st1 => scanLines parseFloat st1 rest
    | none => none

/-- What the renderer receives: the x axis and the three series. -/
structure ChartInput (F : Type) where
  xAxis   : List F
  indoor  : List Int
  outdoor : List Int
  fan     : List Int
  deriving DecidableEq

/-- The arguments of `SetXAxis` and of the three `AddSeries` calls:
`dayf[0:index-1]`, `items1[0:index-1]`, `items2[0:index-1]`, `items3[0:index-1]`. -/
def chartInput {F : Type} (st : ScanState F) : Option (ChartInput F) :=
  (st.dayf.upTo (st.index - 1)).bind fun xs =>
  (itemsUpTo st.items1 (st.index - 1)).bind fun i1 =>
  (itemsUpTo st.items2 (st.index - 1)).bind fun i2 =>
  (itemsUpTo st.items3 (st.index - 1)).bind fun i3 =>
  some { xAxis := xs, indoor := i1, outdoor := i2, fan := i3 }

/-- Reconstruction and charting part of cron job 2 on the lines of the archive. -/
def reconstruct {F : Type} (parseFloat : GoString → F) (st0 : ScanState F)
    (archive : List GoString) : Option (ChartInput F) :=
  match scanLines parseFloat st0 archive with
  | some st => chartInput st
  | none => none

/-- A data line is a line that does not start with `D` (header lines do). -/
def isData (s2 : GoString) : Bool := s2.head? != some 'D'

/-- The data lines of an archive, in file order. -/
def dataLines (archive : List GoString) : List GoString := archive.filter isData

/-- Bytes `[40,44)` of a record parsed as the job does: the outdoor temperature. -/
def outField (s2 : GoString) : Int := atoi ((s2.drop 40).take 4)

/-- Bytes `[45,49)` of a record parsed as the job does: the indoor temperature. -/
def inField (s2 : GoString) : Int := atoi ((s2.drop 45).take 4)

/-- Bytes `[50,54)` of a record parsed as the job does: the blower RPM. -/
def rpmField (s2 : GoString) : Int := atoi ((s2.drop 50).take 4)

/-- Bytes `[20,29)` of a record: the day-fraction text. -/
def fracField (s2 : GoString) : GoString := (s2.drop 20).take 9

/-- A buffer as `make` returns it: all zero. -/
def zeroBuf : Buf Int := ⟨fun _ => 0⟩

/-- Builds a record line with the given outdoor, indoor and RPM fields (4 bytes each)
at the offsets of the Log Record. -/
def sampleLine (o i r : String) : GoString :=
  "2024-03-01T00:04:00,0001.0028,0068,0074,".toList ++ o.toList ++ [','] ++ i.toList ++
    [','] ++ r.toList ++ ",heat".toList

/-- The value kept for a record whose parsed field is `p`, when the value kept for the
record before it is `prev`. -/
def carry (ceiling prev p : Int) : Int := if p = 0 ∨ p > ceiling then prev else p

/-- Forward fill as a list function: each implausible value (zero, or above the
ceiling) is replaced by the value kept for the record before it; `prev` is what
the buffer holds before the first record. -/
def fillFrom (ceiling : Int) (prev : Int) : List Int → List Int
  | [] => []
  | p :: ps => carry ceiling prev p :: fillFrom ceiling (carry ceiling prev p) ps

/-- What one successful pass of the loop body over a data line `s2` does to the state. -/
structure DataStep {F : Type} (pf : GoString → F) (st : ScanState F) (s2 : GoString)
    (st1 : ScanState F) : Prop where
  idx0 : 0 ≤ st.index
  idx1 : st.index < 2000
  len : 54 ≤ s2.length
  index : st1.index = st.index + 1
  items1 : st1.items1 =
    st.items1 ++ [carry 110 (st.inTmp.elem (st.index - 1).toNat) (inField s2)]
  items2 : st1.items2 =
    st.items2 ++ [carry 130 (st.outTmp.elem (st.index - 1).toNat) (outField s2)]
  items3 : st1.items3 = st.items3 ++ [fanBucket (rpmField s2)]
  inAt : st1.inTmp.elem st.index.toNat =
    carry 110 (st.inTmp.elem (st.index - 1).toNat) (inField s2)
  outAt : st1.outTmp.elem st.index.toNat =
    carry 130 (st.outTmp.elem (st.index - 1).toNat) (outField s2)
  dayfAt : st1.dayf.elem st.index.toNat = pf (fracField s2)
  dayfRest : ∀ j, j ≠ st.index.toNat → st1.dayf.elem j = st.dayf.elem j
  outOk : (outField s2 = 0 ∨ outField s2 > 130) → 1 ≤ st.index
  inOk : (inField s2 = 0 ∨ inField s2 > 110) → 1 ≤ st.index

/-- The first data record of the archive, if there is one, has plausible temperature
fields: neither zero nor above its ceiling (130 outdoor, 110 indoor). -/
def firstPlausible (archive : List GoString) : Prop :=
  ∀ l, (dataLines archive).head? = some l →
    ¬ (outField l = 0 ∨ outField l > 130) ∧ ¬ (inField l = 0 ∨ inField l > 110)

/-- The header line of a log file as the scanner returns it (`HeaderString` without its
newline). -/
def headerLine : GoString :=
  "Date,Time,FracTime,Heat Set,Cool Set,Outdoor Temp,Current Temp,blowerRPM".toList

/-- An archive of three records: outdoor fields 68, 999, 70, indoor fields 72, 0, 74,
blower RPM 150, 400, 900. -/
def sampleArchive : List GoString :=
  [headerLine, sampleLine "0068" "0072" "0150", sampleLine "0999" "0000" "0400",
   sampleLine "0070" "0074" "0900"]

/-- An archive whose first record has outdoor temperature field `0000`. -/
def sentinelFirstArchive : List GoString :=
  [headerLine, sampleLine "0000" "0072" "0150", sampleLine "0068" "0072" "0400"]

/-- The state of the buffers in a freshly started process, for a run in which the x axis
values are kept as the text they are parsed from. -/
def freshStart : ScanState GoString :=
  ScanState.start ⟨fun _ => []⟩ zeroBuf zeroBuf zeroBuf

/-! ## `makeTableHTMLfiles`: the index of chart files

The output is modelled as the sequence of the arguments of the `WriteString` calls, in
order.  `filePath` and the formatted current time `timeStr` are parameters. -/

/-- The string written to open a table row. -/
def rowOpen : GoString := "  <tr>\n".toList

/-- The string written to close a table row. -/
def rowClose : GoString := " </tr>\n".toList

/-- The string written for one link cell. -/
def cell (filePath fileName : GoString) : GoString :=
  "    <td><a href=\"".toList ++ filePath ++ fileName ++
    "\" target=\"_blank\" rel=\"noopener noreferrer\">".toList ++ fileName ++
    "</a></td>\n".toList

/-- The string written to open the table. -/
def tableOpen : GoString := "<table width=\"600\" border=\"1\">\n".toList

/-- The string written to close the table. -/
def tableClose : GoString := "</table>\n".toList

/-- First string of a full page: the comment line. -/
def headComment (timeStr : GoString) : GoString :=
  "<!-- infinitive.makeTableHTMLfiles(): ".toList ++ timeStr ++ " -->\n".toList

/-- Second string of a full page: doctype, head and title. -/
def headTitle (timeStr : GoString) : GoString :=
  "<!DOCTYPE html>\n<html>\n<head>\n<title>HVAC Saved Measuremnts ".toList ++ timeStr ++
    "</title>\n</head>\n".toList

/-- Third string of a full page: the body tag and the heading. -/
def headHeading (timeStr : GoString) : GoString :=
  "<body>\n<h2>HVAC Saved Measuremnts ".toList ++ timeStr ++ "</h2>\n".toList

/-- Last string of a full page. -/
def pageClose : GoString := "</body>\n</html>\n\n".toList

/-- What is written before the table: nothing for a table fragment, the comment, head
and heading of the page otherwise. -/
def pageHead (timeStr : GoString) (tableOnly : Bool) : List GoString :=
  if tableOnly then [] else [headComment timeStr, headTitle timeStr, headHeading timeStr]

/-- What is written after the table. -/
def pageTail (tableOnly : Bool) : List GoString :=
  if tableOnly then [] else [pageClose]

/-- The test `fileName[length-1] == 'l' && fileName[0] != 'h'` on a non-empty name. -/
def qualifies (fileName : GoString) : Bool :=
  fileName.getLast? == some 'l' && fileName.head? != some 'h'

/-- Body of the `for _, file := range files` loop: the state is the global `index`
(never negative here) and what has been written so far.  Indexing an empty name
panics. -/
def tableStep (filePath : GoString) (st : Nat × List GoString) (fileName : GoString) :
    Option (Nat × List GoString) :=
  match fileName with
  | [] => none
  | _ :: _ =>
    if qualifies fileName then
      let out1 := if st.1 % 2 = 0 then st.2 ++ [rowOpen] else st.2
      let out2 := out1 ++ [cell filePath fileName]
      let out3 := if st.1 % 2 ≠ 0 then out2 ++ [rowClose] else out2
      some (st.1 + 1, out3)
    else some st

/-- The `for _, file := range files` loop. -/
def tableLoop (filePath : GoString) :
    Nat × List GoString → List GoString → Option (Nat × List GoString)
  | st, [] => some st
  | st, f :: fs =>
    match tableStep filePath st f with
    | some st1 => tableLoop filePath st1 fs
    | none => none

/-- The function `makeTableHTMLfiles(tableOnly)`: `dir` is the result of `ioutil.ReadDir`
(`none` when it fails, the names of the entries otherwise); the result is the sequence of
strings written to `htmlLinks.html` once it is open, `none` on a panic. -/
def makeTableHTMLfiles (filePath timeStr : GoString) (tableOnly : Bool)
    (dir : Option (List GoString)) : Option (List GoString) :=
  let out0 := pageHead timeStr tableOnly ++ [tableOpen]
  match dir with
  | none => some (out0 ++ [tableClose] ++ pageTail tableOnly)
  | some files =>
    match tableLoop filePath (0, out0) files with
    | none => none
    | some st =>
      let out1 := if st.1 % 2 = 1 then st.2 ++ [rowClose] else st.2
      some (out1 ++ [tableClose] ++ pageTail tableOnly)

/-- The qualifying names grouped two by two, a last group of one when their number is
odd: the rows of the two-column table. -/
def rowsOf : List GoString → List (List GoString)
  | [] => []
  | [a] => [[a]]
  | a :: b :: rest => [a, b] :: rowsOf rest

/-- One table row as written: the row-open tag, its cells, the row-close tag. -/
def renderRow (filePath : GoString) (row : List GoString) : List GoString :=
  [rowOpen] ++ row.map (cell filePath) ++ [rowClose]

/-- A written string is a link cell when it starts with the cell opening. -/
def isCell (s : GoString) : Bool := s.take 8 == "    <td>".toList

/-- Five chart files, the index itself and a data file, as `ReadDir` lists them. -/
def fiveCharts : List GoString :=
  ["2024-03-01_Infinitive.csv".toList, "2024-03-01_Temperature.html".toList,
   "2024-03-02_Temperature.html".toList, "2024-03-03_Temperature.html".toList,
   "2024-03-04_Temperature.html".toList, "2024-03-05_Temperature.html".toList,
   "Infinitive.csv".toList, "htmlLinks.html".toList]

/-- Four chart files and the index itself. -/
def fourCharts : List GoString :=
  ["2024-03-01_Temperature.html".toList, "2024-03-02_Temperature.html".toList,
   "2024-03-03_Temperature.html".toList, "2024-03-04_Temperature.html".toList,
   "htmlLinks.html".toList]

/-- What the loop writes for the qualifying names `q` when it starts with `index = i`. -/
def emit (filePath : GoString) : Nat → List GoString → List GoString
  | _, [] => []
  | i, x :: xs =>
    (if i % 2 = 0 then [rowOpen] else []) ++ [cell filePath x] ++
      (if i % 2 ≠ 0 then [rowClose] else []) ++ emit filePath (i + 1) xs

/-! ## Snapshots, the snapshot store and the event decoders (`attachSnoops`) -/

/-- One byte of a frame. -/
abbrev Byte := Fin 256

/-- The thermostat snapshot (`TStatZoneConfig`); `Hold` is a `*bool`. -/
structure TStatZoneConfig where
  CurrentTemp     : Nat
  CurrentHumidity : Nat
  OutdoorTemp     : Nat
  Mode            : String
  Stage           : Nat
  FanMode         : String
  Hold            : Option Bool
  HeatSetpoint    : Nat
  CoolSetpoint    : Nat
  RawMode         : Nat
  deriving DecidableEq

/-- The air-handler snapshot (`AirHandler`): two `uint16` and a flag. -/
structure AirHandler where
  BlowerRPM  : Nat
  AirFlowCFM : Nat
  ElecHeat   : Bool
  deriving DecidableEq

/-- The heat-pump snapshot (`HeatPump`).  The two temperatures are `float32` values; the
decoders only produce `uint16 / 16`, which `float32` represents exactly, so they are
rationals here. -/
structure HeatPump where
  CoilTemp    : Rat
  OutsideTemp : Rat
  Stage       : Nat
  deriving DecidableEq

/-- A value stored in the snapshot store: a pointer to one of the three snapshots. -/
inductive Snapshot where
  | tstat (c : TStatZoneConfig)
  | blower (a : AirHandler)
  | heatpump (h : HeatPump)
  deriving DecidableEq

/-- Modelled from the spec: the Snapshot Store (`cache`, defined outside
`infinitive.go`): a mapping from key to the most recent value, `get(key)` giving the
value or absent. -/
structure Cache where
  get : String → Option Snapshot

/-- Modelled from the spec: `update(key, value)` of the Snapshot Store, total replacement
of the slot of `key`, every other slot kept. -/
def Cache.update (c : Cache) (key : String) (v : Snapshot) : Cache :=
  ⟨fun k => if k = key then some v else c.get k⟩

/-- The function `getAirHandler`: the value under `blower` when it is an `*AirHandler`,
the zero value and `false` otherwise. -/
def getAirHandler (c : Cache) : AirHandler × Bool :=
  match c.get "blower" with
  | some (Snapshot.blower tb) => (tb, true)
  | _ => ({ BlowerRPM := 0, AirFlowCFM := 0, ElecHeat := false }, false)

/-- The function `getHeatPump`: the value under `heatpump` when it is a `*HeatPump`,
the zero value and `false` otherwise. -/
def getHeatPump (c : Cache) : HeatPump × Bool :=
  match c.get "heatpump" with
  | some (Snapshot.heatpump th) => (th, true)
  | _ => ({ CoilTemp := 0, OutsideTemp := 0, Stage := 0 }, false)

/-- The call `binary.BigEndian.Uint16(d[lo:hi])` with `hi - lo >= 2`: the slice bound `hi`
is checked (a frame is taken with capacity equal to its length), then bytes `lo` and
`lo+1` are combined. -/
def uint16At (d : List Byte) (lo hi : Nat) : Option Nat :=
  if hi ≤ d.length then
    match d[lo]?, d[lo + 1]? with
    | some b0, some b1 => some (b0.val * 256 + b1.val)
    | _, _ => none
  else none

/-- What the decoders read and write: the snapshot store and the two globals `blowerRPM`
and `fanRPM` kept for the append job. -/
structure SnoopState where
  cache     : Cache
  blowerRPM : Nat
  fanRPM    : Int

/-- The heat-pump callback of `attachSnoops` (address range 0x5000-0x51ff) on the payload
`frame.data`; `none` is a panic (a payload too short for the fields read). -/
def snoopHeatPump (s : SnoopState) (frame : List Byte) : Option SnoopState :=
  if frame.length < 3 then none
  else
    let data := frame.drop 3
    match getHeatPump s.cache with
    | (_, false) => some s
    | (heatPump, true) =>
      if frame.take 3 = [0x00, 0x3e, 0x01] then
        match uint16At data 2 4, uint16At data 0 2 with
        | some coil, some outside =>
          some { s with cache := (s.cache.update "heatpump"
                   (Snapshot.heatpump { heatPump with CoilTemp := (coil : Rat) / 16,
                                                      OutsideTemp := (outside : Rat) / 16 })) }
        | _, _ => none
      else if frame.take 3 = [0x00, 0x3e, 0x02] then
        match data[0]? with
        | some b =>
          some { s with cache := (s.cache.update "heatpump"
                   (Snapshot.heatpump { heatPump with Stage := b.val / 2 })) }
        | none => none
      else some s

/-- The air-handler callback of `attachSnoops` (address range 0x4000-0x42ff) on the
payload `frame.data`; `none` is a panic. -/
def snoopAirHandler (s : SnoopState) (frame : List Byte) : Option SnoopState :=
  if frame.length < 3 then none
  else
    let data := frame.drop 3
    match getAirHandler s.cache with
    | (_, false) => some s
    | (airHandler, true) =>
      if frame.take 3 = [0x00, 0x03, 0x06] then
        match uint16At data 1 5 with
        | some rpm =>
          some { cache := (s.cache.update "blower"
                   (Snapshot.blower { airHandler with BlowerRPM := rpm })),
                 blowerRPM := rpm, fanRPM := (rpm : Int) }
        | none => none
      else if frame.take 3 = [0x00, 0x03, 0x16] then
        match uint16At data 4 8, data[0]? with
        | some cfm, some b =>
          some { s with cache := (s.cache.update "blower"
                   (Snapshot.blower { airHandler with AirFlowCFM := cfm,
                                                      ElecHeat := decide (b.val % 4 ≠ 0) })) }
        | _, _ => none
      else some s

/-- The snapshot store after a callback: what the callback wrote, or the store as it was
when the callback panicked before writing. -/
def storeAfter (r : Option SnoopState) (s : SnoopState) : Cache :=
  match r with
  | some s1 => s1.cache
  | none => s.cache

/-- A store holding an air-handler snapshot (RPM 700, 900 CFM, electric heat on) and a
heat-pump snapshot (coil 40.5, outside 55.25, stage 2). -/
def sampleStore : SnoopState :=
  { cache := ⟨fun k =>
      if k = "blower" then
        some (Snapshot.blower { BlowerRPM := 700, AirFlowCFM := 900, ElecHeat := true })
      else if k = "heatpump" then
        some (Snapshot.heatpump { CoilTemp := 81 / 2, OutsideTemp := 221 / 4, Stage := 2 })
      else none⟩,
    blowerRPM := 700, fanRPM := 700 }

/-! ## The append job (cron job 1) and the Log Record -/

/-- The header line written at the start of every log file. -/
def HeaderString : GoString :=
  "Date,Time,FracTime,Heat Set,Cool Set,Outdoor Temp,Current Temp,blowerRPM\n".toList

/-- The byte of the decimal digit `d`. -/
def digitChar (d : Nat) : Char := Char.ofNat (48 + d)

/-- Decimal digits of `n`, most significant first, produced from the least significant
end as `fmt` does; `fuel` bounds the number of digits. -/
def decimalAux : Nat → Nat → GoString → GoString
  | 0, _, acc => acc
  | fuel + 1, n, acc =>
    if n < 10 then digitChar n :: acc
    else decimalAux fuel (n / 10) (digitChar (n % 10) :: acc)

/-- The verb `%d` on a non-negative integer. -/
def decimal (n : Nat) : GoString := decimalAux (n + 1) n []

/-- Zero padding on the left up to width `w` (the flag `0` with a width). -/
def padZero (w : Nat) (s : GoString) : GoString := List.replicate (w - s.length) '0' ++ s

/-- The verb `%04d` on a non-negative integer (`uint8` and `uint16` arguments). -/
def fmtD04 (n : Nat) : GoString := padZero 4 (decimal n)

/-- The verb `%09.4f` on a non-negative value, given as `m`, the value rounded to four
decimals by `fmt` in units of 1/10000: integer part, point, four decimals, zero padded
to nine bytes. -/
def fmtF094 (m : Nat) : GoString :=
  padZero 9 (decimal (m / 10000) ++ '.' :: padZero 4 (decimal (m % 10000)))

/-- A wall-clock time as `time.Now()` returns it, by its calendar fields. -/
structure GoTime where
  year   : Nat
  month  : Nat
  day    : Nat
  hour   : Nat
  minute : Nat
  second : Nat
  deriving DecidableEq

/-- The calendar fields are in range and the year has at most four digits. -/
def GoTime.valid (t : GoTime) : Prop :=
  t.year ≤ 9999 ∧ 1 ≤ t.month ∧ t.month ≤ 12 ∧ 1 ≤ t.day ∧ t.day ≤ 31 ∧
    t.hour ≤ 23 ∧ t.minute ≤ 59 ∧ t.second ≤ 59

instance (t : GoTime) : Decidable t.valid := by
  unfold GoTime.valid
  exact inferInstance

/-- The call `dt.Format("2006-01-02T15:04:05")`. -/
def formatStamp (t : GoTime) : GoString :=
  padZero 4 (decimal t.year) ++ '-' :: (padZero 2 (decimal t.month) ++ '-' ::
    (padZero 2 (decimal t.day) ++ 'T' :: (padZero 2 (decimal t.hour) ++ ':' ::
      (padZero 2 (decimal t.minute) ++ ':' :: padZero 2 (decimal t.second)))))

/-- The globals the poller and the decoders keep for the append job. -/
structure Derived where
  heatSet     : Nat
  coolSet     : Nat
  outdoorTemp : Nat
  currentTemp : Nat
  blowerRPM   : Nat
  hvacMode    : GoString

/-- The text of a Log Record, without its final newline:
`Sprintf("%s,%09.4f,%04d,%04d,%04d,%04d,%04d,%s", ...)`.  `frc` is `frcDay` as `%09.4f`
rounds it, in units of 1/10000. -/
def recordText (dt : GoTime) (frc : Nat) (d : Derived) : GoString :=
  formatStamp dt ++ ',' :: (fmtF094 frc ++ ',' :: (fmtD04 d.heatSet ++ ',' ::
    (fmtD04 d.coolSet ++ ',' :: (fmtD04 d.outdoorTemp ++ ',' ::
      (fmtD04 d.currentTemp ++ ',' :: (fmtD04 d.blowerRPM ++ ',' :: d.hvacMode))))))

/-- The string `s1` cron job 1 writes: the record text and a newline. -/
def logRecord (dt : GoTime) (frc : Nat) (d : Derived) : GoString :=
  recordText dt frc d ++ ['\n']

/-- A sample instant and sample values of the globals. -/
def sampleTime : GoTime :=
  { year := 2024, month := 3, day := 1, hour := 13, minute := 4, second := 0 }

/-- Sample values of the globals kept for the append job. -/
def sampleDerived : Derived :=
  { heatSet := 68, coolSet := 74, outdoorTemp := 41, currentTemp := 70, blowerRPM := 812,
    hvacMode := "heat".toList }

/-! ## Files, process start, the append job and the rotation job (cron job 2)

A text file is the sequence of the strings written to it; every write of this program is
one line ending in a newline.  File operations that the program checks can fail; which
ones do in a given invocation is an input (`Faults`). -/

/-- The build-time strings of the program. -/
structure Config where
  filePath          : GoString
  fileName          : GoString
  TemperatureSuffix : GoString

/-- The values in the source. -/
def defaultConfig : Config :=
  { filePath := "/var/lib/infinitive/".toList, fileName := "Infinitive.csv".toList,
    TemperatureSuffix := "_Temperature.html".toList }

/-- The text files of the data directory: path to the lines written, `none` when the
file does not exist. -/
structure FileSys where
  file : GoString → Option (List GoString)

/-- Sets (or removes) the content at one path. -/
def FileSys.set (fs : FileSys) (path : GoString) (c : Option (List GoString)) : FileSys :=
  ⟨fun p => if p = path then c else fs.file p⟩

/-- The call `os.OpenFile(path, O_APPEND|O_CREATE|O_WRONLY, 0664)` when it succeeds: the
file is created empty when absent and kept as it is otherwise. -/
def FileSys.openAppend (fs : FileSys) (path : GoString) : FileSys :=
  match fs.file path with
  | some _ => fs
  | none => fs.set path (some [])

/-- A `WriteString` on a file opened for appending. -/
def FileSys.append (fs : FileSys) (path : GoString) (s : GoString) : FileSys :=
  match fs.file path with
  | some c => fs.set path (some (c ++ [s]))
  | none => fs

/-- The call `os.Rename(old, new)` when it succeeds: `new` gets the content of `old`,
replacing whatever it held, and `old` no longer exists. -/
def FileSys.rename (fs : FileSys) (old new : GoString) : FileSys :=
  (fs.set new (fs.file old)).set old none

/-- The path of the active log: `filePath+fileName`. -/
def activePath (cfg : Config) : GoString := cfg.filePath ++ cfg.fileName

/-- Space padding on the left up to width `w` (a width without the flag `0`). -/
def padSpace (w : Nat) (s : GoString) : GoString := List.replicate (w - s.length) ' ' ++ s

/-- The archive path of cron job 2:
`Sprintf("%s%4d-%02d-%02d_%s", filePath, dt.Year(), dt.Month(), dt.Day(), fileName)`. -/
def dailyFileName (cfg : Config) (dt : GoTime) : GoString :=
  cfg.filePath ++ (padSpace 4 (decimal dt.year) ++ '-' :: (padZero 2 (decimal dt.month) ++
    '-' :: (padZero 2 (decimal dt.day) ++ '_' :: cfg.fileName)))

/-- The chart path of cron job 2:
`Sprintf("%s%04d-%02d-%02d%s", filePath, dt.Year(), dt.Month(), dt.Day(), TemperatureSuffix)`. -/
def chartFileName (cfg : Config) (dt : GoTime) : GoString :=
  cfg.filePath ++ (padZero 4 (decimal dt.year) ++ '-' :: (padZero 2 (decimal dt.month) ++
    '-' :: (padZero 2 (decimal dt.day) ++ cfg.TemperatureSuffix)))

/-- What `Line.Render` is given: the subtitle names the archive, the series are the
arguments of `SetXAxis` and `AddSeries`. -/
structure ChartDoc where
  subtitle : GoString
  series   : ChartInput GoString
  deriving DecidableEq

/-- How an invocation of a job ends: it returns to the scheduler, it terminates the
process through `os.Exit(code)`, or it panics. -/
inductive JobEnd where
  | returned
  | exited (code : Nat)
  | panicked
  deriving DecidableEq

/-- The checked file operations of cron job 2 that fail in one invocation. -/
structure Faults where
  closeFails     : Bool
  renameFails    : Bool
  reopenFails    : Bool
  openDailyFails : Bool
  chartFails     : Bool

/-- No operation fails. -/
def noFaults : Faults :=
  { closeFails := false, renameFails := false, reopenFails := false,
    openDailyFails := false, chartFails := false }

/-- The state of the process that the jobs share: the files, the charts rendered so far
(path and document, latest first), whether `fileHvacHistory` is an open file, the variable
`dt` of `main`, the buffers and `index`, and the messages given to `log.Error`. -/
structure Proc where
  fs         : FileSys
  charts     : List (GoString × ChartDoc)
  handleOpen : Bool
  dt         : GoTime
  scan       : ScanState GoString
  errors     : List GoString

/-- The start of `main` as far as the log is concerned: `dt := time.Now()`, the active
log is opened for appending (created when absent) and `HeaderString` is written.  When
the open fails the error is reported, the handle is nil and the write does nothing. -/
def startup (cfg : Config) (now : GoTime) (openFails : Bool) (fs : FileSys) : Proc :=
  if openFails then
    { fs := fs, charts := [], handleOpen := false, dt := now,
      scan := ScanState.start ⟨fun _ => []⟩ zeroBuf zeroBuf zeroBuf,
      errors := ["Infinitive Data File Open Failure.".toList] }
  else
    { fs := (fs.openAppend (activePath cfg)).append (activePath cfg) HeaderString,
      charts := [], handleOpen := true, dt := now,
      scan := ScanState.start ⟨fun _ => []⟩ zeroBuf zeroBuf zeroBuf,
      errors := [] }

/-- Cron job 1, run at time `now`: one Log Record is formatted from the globals and
written to `fileHvacHistory` (nothing is written through a nil or closed handle). -/
def cronJob1 (cfg : Config) (now : GoTime) (frc : Nat) (d : Derived) (p : Proc) : Proc :=
  if p.handleOpen then
    { p with fs := p.fs.append (activePath cfg) (logRecord now frc d) }
  else p

/-- A line as `bufio.Scanner` returns it: without its final newline. -/
def scannerLine (s : GoString) : GoString :=
  if s.getLast? = some '\n' then s.dropLast else s

/-- First part of cron job 2: close, rename, reopen, write the header, open the archive.
The result is the new state and, when the job ends here, how it ends. -/
def rotateFiles (cfg : Config) (f : Faults) (p : Proc) : Proc × Option JobEnd :=
  if f.closeFails || !p.handleOpen then
    ({ p with errors := p.errors ++
        ["infinitive.go cron 2 - error closing:".toList ++ activePath cfg] },
     some (JobEnd.exited 0))
  else if f.renameFails || (p.fs.file (activePath cfg)).isNone then
    ({ p with handleOpen := false, errors := p.errors ++
        ["infinitive.go cron 2 - unable to rename old ".toList ++ activePath cfg ++
          " to ".toList ++ dailyFileName cfg p.dt] },
     some (JobEnd.exited 0))
  else
    let fs1 := p.fs.rename (activePath cfg) (dailyFileName cfg p.dt)
    if f.reopenFails then
      ({ p with fs := fs1, handleOpen := false, errors := p.errors ++
          ["infinitive.go cron Job 2, error on reopen of:".toList ++ activePath cfg] },
       some (JobEnd.exited 0))
    else
      let fs2 := (fs1.openAppend (activePath cfg)).append (activePath cfg) HeaderString
      if f.openDailyFails then
        ({ p with fs := fs2, handleOpen := true, errors := p.errors ++
            ["infinitive.go cron 2 - unable to open daily file for read: ".toList ++
              dailyFileName cfg p.dt] },
         some (JobEnd.exited 0))
      else ({ p with fs := fs2, handleOpen := true }, none)

/-- The statements `index = 0` and `items1 := make(...)`, ... at the top of the
reconstruction: the buffers stay as the previous invocation left them. -/
def ScanState.restart (st : ScanState GoString) : ScanState GoString :=
  { st with index := 0, items1 := [], items2 := [], items3 := [] }

/-- Second part of cron job 2: the archive is read line by line, the series are rebuilt
and the chart is rendered to the chart path (an error is reported when that file cannot
be created). -/
def chartArchive (cfg : Config) (f : Faults) (p : Proc) : Proc × JobEnd :=
  let archive := ((p.fs.file (dailyFileName cfg p.dt)).getD []).map scannerLine
  match scanLines (fun s => s) p.scan.restart archive with
  | none => (p, JobEnd.panicked)
  | some st =>
    match chartInput st with
    | none => ({ p with scan := st }, JobEnd.panicked)
    | some ch =>
      if f.chartFails then
        ({ p with scan := st, errors := p.errors ++
            ["Infinitive.go cron 2, error creating html rendered file.".toList] },
         JobEnd.returned)
      else
        ({ p with scan := st,
                  charts := (chartFileName cfg p.dt,
                    { subtitle := "Indoor and Outdoor Temperatues from ".toList ++
                        dailyFileName cfg p.dt,
                      series := ch }) :: p.charts },
         JobEnd.returned)

/-- Cron job 2, the rotation job. -/
def cronJob2 (cfg : Config) (f : Faults) (p : Proc) : Proc × JobEnd :=
  match rotateFiles cfg f p with
  | (p1, some e) => (p1, e)
  | (p1, none) => chartArchive cfg f p1

/-- The active log holds the header line exactly once, as its first line. -/
def HeaderOnce (content : List GoString) : Prop :=
  content.head? = some HeaderString ∧ content.count HeaderString = 1

instance (content : List GoString) : Decidable (HeaderOnce content) := by
  unfold HeaderOnce
  exact inferInstance

/-- No file at all. -/
def emptyFS : FileSys := ⟨fun _ => none⟩

/-- The instant 2024-03-01 09:00:00, a process start. -/
def day1Start : GoTime :=
  { year := 2024, month := 3, day := 1, hour := 9, minute := 0, second := 0 }

/-- The instant 2024-03-01 23:56:00, the last append of the first day. -/
def day1Last : GoTime :=
  { year := 2024, month := 3, day := 1, hour := 23, minute := 56, second := 0 }

/-- The instant 2024-03-02 00:04:00, an append of the second day. -/
def day2First : GoTime :=
  { year := 2024, month := 3, day := 2, hour := 0, minute := 4, second := 0 }

/-- The instant 2024-03-02 23:56:00, the last append of the second day. -/
def day2Last : GoTime :=
  { year := 2024, month := 3, day := 2, hour := 23, minute := 56, second := 0 }

/-- An active log left by an earlier run: the header and one record. -/
def leftoverFS : FileSys :=
  emptyFS.set (activePath defaultConfig)
    (some [HeaderString, logRecord day1Last 19972 sampleDerived])

/-- A process started on 2024-03-01 that has appended two records that day. -/
def day1Proc : Proc :=
  cronJob1 defaultConfig day1Last 19972 sampleDerived
    (cronJob1 defaultConfig day1Start 13750 sampleDerived
      (startup defaultConfig day1Start false emptyFS))

/-- The same process after the rotation of the first day. -/
def afterDay1 : Proc := (cronJob2 defaultConfig noFaults day1Proc).1

/-- The same process after two appends on 2024-03-02 and the rotation of that day. -/
def afterDay2 : Proc :=
  (cronJob2 defaultConfig noFaults
    (cronJob1 defaultConfig day2Last 29972 sampleDerived
      (cronJob1 defaultConfig day2First 20028 sampleDerived afterDay1))).1

/-- Only the rename fails. -/
def renameFault : Faults := { noFaults with renameFails := true }

/-- Only the reopen of the active log fails. -/
def reopenFault : Faults := { noFaults with reopenFails := true }

/-! ## Properties of the reconstruction loop -/

theorem slice_eq_some {s : GoString} {lo hi : Nat} {x : GoString}
    (h : slice s lo hi = some x) : x = (s.drop lo).take (hi - lo) ∧ hi ≤ s.length := by
  unfold slice at h
  split at h
  · rename_i hc
    exact ⟨(Option.some.inj h).symm, hc.2⟩
  · exact absurd h (by simp)

theorem slice_of_le {s : GoString} {lo hi : Nat} (h1 : lo ≤ hi) (h2 : hi ≤ s.length) :
    slice s lo hi = some ((s.drop lo).take (hi - lo)) := by
  unfold slice
  rw [if_pos ⟨h1, h2⟩]

theorem read_eq_some {α : Type} {b : Buf α} {i : Int} {v : α} (h : b.read i = some v) :
    0 ≤ i ∧ i < 2000 ∧ v = b.elem i.toNat := by
  unfold Buf.read bufCap at h
  split at h
  · rename_i hc
    exact ⟨hc.1, by simpa using hc.2, (Option.some.inj h).symm⟩
  · exact absurd h (by simp)

theorem read_of_range {α : Type} (b : Buf α) {i : Int} (h0 : 0 ≤ i) (h1 : i < 2000) :
    b.read i = some (b.elem i.toNat) := by
  unfold Buf.read bufCap
  rw [if_pos ⟨h0, by simpa using h1⟩]

theorem write_eq_some {α : Type} {b b1 : Buf α} {i : Int} {v : α}
    (h : b.write i v = some b1) :
    0 ≤ i ∧ i < 2000 ∧ b1.elem = fun j => if j = i.toNat then v else b.elem j := by
  unfold Buf.write bufCap at h
  split at h
  · rename_i hc
    refine ⟨hc.1, by simpa using hc.2, ?_⟩
    rw [← Option.some.inj h]
  · exact absurd h (by simp)

theorem write_of_range {α : Type} (b : Buf α) {i : Int} (v : α) (h0 : 0 ≤ i) (h1 : i < 2000) :
    b.write i v = some ⟨fun j => if j = i.toNat then v else b.elem j⟩ := by
  unfold Buf.write bufCap
  rw [if_pos ⟨h0, by simpa using h1⟩]

theorem write_fill {b b0 b1 : Buf Int} {i c v : Int}
    (hw : b.write i v = some b0) (hf : fillPrev b0 i c = some b1) :
    0 ≤ i ∧ i < 2000 ∧ ((v = 0 ∨ v > c) → 1 ≤ i) ∧
      b1.elem i.toNat = carry c (b.elem (i - 1).toNat) v ∧
      ∀ j, j ≠ i.toNat → b1.elem j = b.elem j := by
  obtain ⟨h0, h1, hb0⟩ := write_eq_some hw
  unfold fillPrev at hf
  rw [read_of_range b0 h0 h1] at hf
  simp only [Option.bind] at hf
  have hv : b0.elem i.toNat = v := by rw [hb0]; simp
  rw [hv] at hf
  by_cases hbad : v = 0 ∨ v > c
  · rw [if_pos hbad] at hf
    cases hr : b0.read (i - 1) with
    | none => rw [hr] at hf; exact absurd hf (by simp)
    | some p =>
      rw [hr] at hf
      simp only at hf
      obtain ⟨hp0, _, hp⟩ := read_eq_some hr
      obtain ⟨_, _, hb1⟩ := write_eq_some hf
      have hne : (i - 1).toNat ≠ i.toNat := by omega
      refine ⟨h0, h1, fun _ => by omega, ?_, ?_⟩
      · have e1 : b1.elem i.toNat = p := by rw [hb1]; exact if_pos rfl
        have e2 : b0.elem (i - 1).toNat = b.elem (i - 1).toNat := by
          rw [hb0]; exact if_neg hne
        rw [e1, hp, e2, carry, if_pos hbad]
      · intro j hj
        rw [hb1, hb0]
        simp [hj]
  · rw [if_neg hbad] at hf
    have hb : b1 = b0 := (Option.some.inj hf).symm
    refine ⟨h0, h1, fun h => absurd h hbad, ?_, ?_⟩
    · rw [hb, hv, carry, if_neg hbad]
    · intro j hj
      rw [hb, hb0]
      simp [hj]

theorem write_fill_total (b : Buf Int) {i c v : Int} (h0 : 0 ≤ i) (h1 : i < 2000)
    (hbad : (v = 0 ∨ v > c) → 1 ≤ i) :
    ∃ b0 b1, b.write i v = some b0 ∧ fillPrev b0 i c = some b1 := by
  have hfill : ∃ b1, fillPrev ⟨fun j => if j = i.toNat then v else b.elem j⟩ i c = some b1 := by
    unfold fillPrev
    rw [read_of_range _ h0 h1]
    simp only [Option.bind, if_true]
    by_cases hb : v = 0 ∨ v > c
    · rw [if_pos hb, read_of_range _ (by have := hbad hb; omega) (by omega)]
      simp only
      rw [write_of_range _ _ h0 h1]
      exact ⟨_, rfl⟩
    · rw [if_neg hb]
      exact ⟨_, rfl⟩
  obtain ⟨b1, hb1⟩ := hfill
  exact ⟨_, b1, write_of_range b v h0 h1, hb1⟩

theorem stepDayf_eq_some {F : Type} {pf : GoString → F} {st st1 : ScanState F} {s2 : GoString}
    (h : stepDayf pf st s2 = some st1) :
    29 ≤ s2.length ∧ 0 ≤ st.index ∧ st.index < 2000 ∧
      st1.dayf.elem = (fun j => if j = st.index.toNat then pf (fracField s2) else st.dayf.elem j) ∧
      st1.inTmp = st.inTmp ∧ st1.outTmp = st.outTmp ∧ st1.motRPM = st.motRPM ∧
      st1.index = st.index ∧ st1.items1 = st.items1 ∧ st1.items2 = st.items2 ∧
      st1.items3 = st.items3 := by
  unfold stepDayf at h
  cases hs : slice s2 20 29 with
  | none => rw [hs] at h; exact absurd h (by simp)
  | some f =>
    rw [hs] at h
    simp only at h
    cases hw : st.dayf.write st.index (pf f) with
    | none => rw [hw] at h; exact absurd h (by simp)
    | some d =>
      rw [hw] at h
      simp only at h
      obtain ⟨hf, hlen⟩ := slice_eq_some hs
      obtain ⟨h0, h1, hd⟩ := write_eq_some hw
      have e := Option.some.inj h
      subst e
      refine ⟨hlen, h0, h1, ?_, rfl, rfl, rfl, rfl, rfl, rfl, rfl⟩
      simp only [hd, hf, fracField]

theorem stepOut_eq_some {F : Type} {st st1 : ScanState F} {s2 : GoString}
    (h : stepOut st s2 = some st1) :
    44 ≤ s2.length ∧ 0 ≤ st.index ∧ st.index < 2000 ∧
      ((outField s2 = 0 ∨ outField s2 > 130) → 1 ≤ st.index) ∧
      st1.outTmp.elem st.index.toNat =
        carry 130 (st.outTmp.elem (st.index - 1).toNat) (outField s2) ∧
      (∀ j, j ≠ st.index.toNat → st1.outTmp.elem j = st.outTmp.elem j) ∧
      st1.dayf = st.dayf ∧ st1.inTmp = st.inTmp ∧ st1.motRPM = st.motRPM ∧
      st1.index = st.index ∧ st1.items1 = st.items1 ∧ st1.items2 = st.items2 ∧
      st1.items3 = st.items3 := by
  unfold stepOut at h
  cases hs : slice s2 40 44 with
  | none => rw [hs] at h; exact absurd h (by simp)
  | some f =>
    rw [hs] at h
    simp only at h
    cases hw : st.outTmp.write st.index (atoi f) with
    | none => rw [hw] at h; exact absurd h (by simp)
    | some b0 =>
      rw [hw] at h
      simp only at h
      cases hp : fillPrev b0 st.index 130 with
      | none => rw [hp] at h; exact absurd h (by simp)
      | some b1 =>
        rw [hp] at h
        simp only at h
        obtain ⟨hf, hlen⟩ := slice_eq_some hs
        have e := Option.some.inj h
        subst e
        have hfield : atoi f = outField s2 := by rw [hf]; rfl
        rw [hfield] at hw
        obtain ⟨h0, h1, hbad, hv, hrest⟩ := write_fill hw hp
        exact ⟨hlen, h0, h1, hbad, hv, hrest, rfl, rfl, rfl, rfl, rfl, rfl, rfl⟩

theorem stepIn_eq_some {F : Type} {st st1 : ScanState F} {s2 : GoString}
    (h : stepIn st s2 = some st1) :
    49 ≤ s2.length ∧ 0 ≤ st.index ∧ st.index < 2000 ∧
      ((inField s2 = 0 ∨ inField s2 > 110) → 1 ≤ st.index) ∧
      st1.inTmp.elem st.index.toNat =
        carry 110 (st.inTmp.elem (st.index - 1).toNat) (inField s2) ∧
      (∀ j, j ≠ st.index.toNat → st1.inTmp.elem j = st.inTmp.elem j) ∧
      st1.dayf = st.dayf ∧ st1.outTmp = st.outTmp ∧ st1.motRPM = st.motRPM ∧
      st1.index = st.index ∧ st1.items1 = st.items1 ∧ st1.items2 = st.items2 ∧
      st1.items3 = st.items3 := by
  unfold stepIn at h
  cases hs : slice s2 45 49 with
  | none => rw [hs] at h; exact absurd h (by simp)
  | some f =>
    rw [hs] at h
    simp only at h
    cases hw : st.inTmp.write st.index (atoi f) with
    | none => rw [hw] at h; exact absurd h (by simp)
    | some b0 =>
      rw [hw] at h
      simp only at h
      cases hp : fillPrev b0 st.index 110 with
      | none => rw [hp] at h; exact absurd h (by simp)
      | some b1 =>
        rw [hp] at h
        simp only at h
        obtain ⟨hf, hlen⟩ := slice_eq_some hs
        have e := Option.some.inj h
        subst e
        have hfield : atoi f = inField s2 := by rw [hf]; rfl
        rw [hfield] at hw
        obtain ⟨h0, h1, hbad, hv, hrest⟩ := write_fill hw hp
        exact ⟨hlen, h0, h1, hbad, hv, hrest, rfl, rfl, rfl, rfl, rfl, rfl, rfl⟩

theorem stepRPM_eq_some {F : Type} {st st1 : ScanState F} {s2 : GoString}
    (h : stepRPM st s2 = some st1) :
    54 ≤ s2.length ∧
      st1.motRPM.elem st.index.toNat = fanBucket (rpmField s2) ∧
      (∀ j, j ≠ st.index.toNat → st1.motRPM.elem j = st.motRPM.elem j) ∧
      st1.dayf = st.dayf ∧ st1.outTmp = st.outTmp ∧ st1.inTmp = st.inTmp ∧
      st1.index = st.index ∧ st1.items1 = st.items1 ∧ st1.items2 = st.items2 ∧
      st1.items3 = st.items3 := by
  unfold stepRPM at h
  cases hs : slice s2 50 54 with
  | none => rw [hs] at h; exact absurd h (by simp)
  | some f =>
    rw [hs] at h
    simp only at h
    cases hw : st.motRPM.write st.index (atoi f) with
    | none => rw [hw] at h; exact absurd h (by simp)
    | some b0 =>
      rw [hw] at h
      simp only at h
      cases hr : b0.read st.index with
      | none => rw [hr] at h; exact absurd h (by simp)
      | some r =>
        rw [hr] at h
        simp only at h
        cases hw2 : b0.write st.index (fanBucket r) with
        | none => rw [hw2] at h; exact absurd h (by simp)
        | some b1 =>
          rw [hw2] at h
          simp only at h
          obtain ⟨hf, hlen⟩ := slice_eq_some hs
          have e := Option.some.inj h
          subst e
          obtain ⟨_, _, hb0⟩ := write_eq_some hw
          obtain ⟨_, _, hrv⟩ := read_eq_some hr
          obtain ⟨_, _, hb1⟩ := write_eq_some hw2
          have hr2 : r = rpmField s2 := by
            rw [hrv, hb0, hf]; simp only [if_true]; rfl
          refine ⟨hlen, ?_, ?_, rfl, rfl, rfl, rfl, rfl, rfl, rfl⟩
          · simp only [hb1, if_true, hr2]
          · intro j hj
            simp only [hb1, hb0, if_neg hj]

theorem stepItems_eq_some {F : Type} {st st1 : ScanState F}
    (h : stepItems st = some st1) :
    st1.index = st.index + 1 ∧
      st1.items1 = st.items1 ++ [st.inTmp.elem st.index.toNat] ∧
      st1.items2 = st.items2 ++ [st.outTmp.elem st.index.toNat] ∧
      st1.items3 = st.items3 ++ [st.motRPM.elem st.index.toNat] ∧
      st1.dayf = st.dayf ∧ st1.outTmp = st.outTmp ∧ st1.inTmp = st.inTmp ∧
      st1.motRPM = st.motRPM := by
  unfold stepItems at h
  split at h
  · rename_i vi vo vm h1 h2 h3
    obtain ⟨_, _, e1⟩ := read_eq_some h1
    obtain ⟨_, _, e2⟩ := read_eq_some h2
    obtain ⟨_, _, e3⟩ := read_eq_some h3
    have e := Option.some.inj h
    subst e
    subst e1 e2 e3
    exact ⟨rfl, rfl, rfl, rfl, rfl, rfl, rfl, rfl⟩
  · exact absurd h (by simp)

theorem scanData_eq_some {F : Type} {pf : GoString → F} {st st' : ScanState F} {s2 : GoString}
    (h : scanData pf st s2 = some st') : DataStep pf st s2 st' := by
  unfold scanData at h
  cases h1 : stepDayf pf st s2 with
  | none => rw [h1] at h; exact absurd h (by simp)
  | some st1 =>
    rw [h1] at h
    simp only at h
    cases h2 : stepOut st1 s2 with
    | none => rw [h2] at h; exact absurd h (by simp)
    | some st2 =>
      rw [h2] at h
      simp only at h
      cases h3 : stepIn st2 s2 with
      | none => rw [h3] at h; exact absurd h (by simp)
      | some st3 =>
        rw [h3] at h
        simp only at h
        cases h4 : stepRPM st3 s2 with
        | none => rw [h4] at h; exact absurd h (by simp)
        | some st4 =>
          rw [h4] at h
          simp only at h
          obtain ⟨_, a0, a1, ad, ai, ao, am, ax, a1', a2', a3'⟩ := stepDayf_eq_some h1
          obtain ⟨_, _, _, bok, bv, _, bd, bi, bm, bx, b1', b2', b3'⟩ := stepOut_eq_some h2
          obtain ⟨_, _, _, cok, cv, _, cd, co, cm, cx, c1', c2', c3'⟩ := stepIn_eq_some h3
          obtain ⟨dlen, dv, _, dd, dq, di, dx, d1', d2', d3'⟩ := stepRPM_eq_some h4
          obtain ⟨ex, e1', e2', e3', ed, eo, ei, em⟩ := stepItems_eq_some h
          have x3 : st3.index = st.index := by rw [cx, bx, ax]
          have x4 : st4.index = st.index := by rw [dx, x3]
          have x2 : st2.index = st.index := by rw [bx, ax]
          rw [ax] at bok bv
          rw [x2] at cok cv
          rw [x3] at dv
          rw [ao] at bv
          rw [bi, ai] at cv
          refine
            { idx0 := a0, idx1 := a1, len := dlen, index := by rw [ex, x4],
              items1 := ?_, items2 := ?_, items3 := ?_, inAt := ?_, outAt := ?_,
              dayfAt := ?_, dayfRest := ?_, outOk := bok, inOk := cok }
          · rw [e1', x4, d1', c1', b1', a1', di, cv]
          · rw [e2', x4, d2', c2', b2', a2', dq, co, bv]
          · rw [e3', x4, d3', c3', b3', a3', dv]
          · rw [ei, di, cv]
          · rw [eo, dq, co, bv]
          · rw [ed, dd, cd, bd, ad]
            simp
          · intro j hj
            rw [ed, dd, cd, bd, ad]
            simp [hj]

theorem stepDayf_total {F : Type} (pf : GoString → F) (st : ScanState F) (s2 : GoString)
    (h0 : 0 ≤ st.index) (h1 : st.index < 2000) (hlen : 54 ≤ s2.length) :
    ∃ st', stepDayf pf st s2 = some st' := by
  unfold stepDayf
  rw [slice_of_le (by omega) (by omega)]
  simp only
  rw [write_of_range _ _ h0 h1]
  exact ⟨_, rfl⟩

theorem stepOut_total {F : Type} (st : ScanState F) (s2 : GoString)
    (h0 : 0 ≤ st.index) (h1 : st.index < 2000) (hlen : 54 ≤ s2.length)
    (hout : (outField s2 = 0 ∨ outField s2 > 130) → 1 ≤ st.index) :
    ∃ st', stepOut st s2 = some st' := by
  obtain ⟨b0, b1, hw, hf⟩ := write_fill_total st.outTmp (c := 130) h0 h1 hout
  unfold stepOut
  rw [slice_of_le (by omega) (by omega)]
  simp only
  have hw' : st.outTmp.write st.index (atoi (List.take (44 - 40) (List.drop 40 s2))) = some b0 :=
    hw
  rw [hw']
  simp only
  rw [hf]
  exact ⟨_, rfl⟩

theorem stepIn_total {F : Type} (st : ScanState F) (s2 : GoString)
    (h0 : 0 ≤ st.index) (h1 : st.index < 2000) (hlen : 54 ≤ s2.length)
    (hin : (inField s2 = 0 ∨ inField s2 > 110) → 1 ≤ st.index) :
    ∃ st', stepIn st s2 = some st' := by
  obtain ⟨b0, b1, hw, hf⟩ := write_fill_total st.inTmp (c := 110) h0 h1 hin
  unfold stepIn
  rw [slice_of_le (by omega) (by omega)]
  simp only
  have hw' : st.inTmp.write st.index (atoi (List.take (49 - 45) (List.drop 45 s2))) = some b0 :=
    hw
  rw [hw']
  simp only
  rw [hf]
  exact ⟨_, rfl⟩

theorem stepRPM_total {F : Type} (st : ScanState F) (s2 : GoString)
    (h0 : 0 ≤ st.index) (h1 : st.index < 2000) (hlen : 54 ≤ s2.length) :
    ∃ st', stepRPM st s2 = some st' := by
  unfold stepRPM
  rw [slice_of_le (by omega) (by omega)]
  simp only
  rw [write_of_range _ _ h0 h1]
  simp only
  rw [read_of_range _ h0 h1]
  simp only
  rw [write_of_range _ _ h0 h1]
  exact ⟨_, rfl⟩

theorem stepItems_total {F : Type} (st : ScanState F)
    (h0 : 0 ≤ st.index) (h1 : st.index < 2000) :
    ∃ st', stepItems st = some st' := by
  unfold stepItems
  rw [read_of_range _ h0 h1, read_of_range _ h0 h1, read_of_range _ h0 h1]
  exact ⟨_, rfl⟩

theorem scanData_total {F : Type} (pf : GoString → F) (st : ScanState F) (s2 : GoString)
    (h0 : 0 ≤ st.index) (h1 : st.index < 2000) (hlen : 54 ≤ s2.length)
    (hout : (outField s2 = 0 ∨ outField s2 > 130) → 1 ≤ st.index)
    (hin : (inField s2 = 0 ∨ inField s2 > 110) → 1 ≤ st.index) :
    ∃ st', scanData pf st s2 = some st' := by
  obtain ⟨st1, e1⟩ := stepDayf_total pf st s2 h0 h1 hlen
  have x1 : st1.index = st.index := (stepDayf_eq_some e1).2.2.2.2.2.2.2.1
  obtain ⟨st2, e2⟩ := stepOut_total st1 s2 (by rw [x1]; exact h0) (by rw [x1]; exact h1) hlen
    (by rw [x1]; exact hout)
  have x2 : st2.index = st1.index := (stepOut_eq_some e2).2.2.2.2.2.2.2.2.2.1
  obtain ⟨st3, e3⟩ := stepIn_total st2 s2 (by rw [x2, x1]; exact h0) (by rw [x2, x1]; exact h1)
    hlen (by rw [x2, x1]; exact hin)
  have x3 : st3.index = st2.index := (stepIn_eq_some e3).2.2.2.2.2.2.2.2.2.1
  obtain ⟨st4, e4⟩ := stepRPM_total st3 s2 (by rw [x3, x2, x1]; exact h0)
    (by rw [x3, x2, x1]; exact h1) hlen
  have x4 : st4.index = st3.index := (stepRPM_eq_some e4).2.2.2.2.2.2.1
  obtain ⟨st5, e5⟩ := stepItems_total st4 (by rw [x4, x3, x2, x1]; exact h0)
    (by rw [x4, x3, x2, x1]; exact h1)
  refine ⟨st5, ?_⟩
  unfold scanData
  rw [e1]
  simp only
  rw [e2]
  simp only
  rw [e3]
  simp only
  rw [e4]
  exact e5

theorem dataLines_cons_header (t : GoString) (ls : List GoString) :
    dataLines (('D' :: t) :: ls) = dataLines ls := by
  simp [dataLines, isData]

theorem dataLines_cons_data {c : Char} (hc : c ≠ 'D') (t : GoString) (ls : List GoString) :
    dataLines ((c :: t) :: ls) = (c :: t) :: dataLines ls := by
  simp [dataLines, isData, hc]

/-- The loop over the whole archive, from any state with a non-negative `index`:
what the final state holds in terms of the data lines. -/
theorem scanLines_spec {F : Type} (pf : GoString → F) :
    ∀ (ls : List GoString) (st st' : ScanState F),
      scanLines pf st ls = some st' → 0 ≤ st.index → st.index ≤ 2000 →
      st'.index = st.index + ((dataLines ls).length : Int) ∧ st'.index ≤ 2000 ∧
      st'.items1 = st.items1 ++
        fillFrom 110 (st.inTmp.elem (st.index - 1).toNat) ((dataLines ls).map inField) ∧
      st'.items2 = st.items2 ++
        fillFrom 130 (st.outTmp.elem (st.index - 1).toNat) ((dataLines ls).map outField) ∧
      st'.items3 = st.items3 ++ (dataLines ls).map (fun l => fanBucket (rpmField l)) ∧
      (∀ j, j < st.index.toNat → st'.dayf.elem j = st.dayf.elem j) ∧
      (∀ k l, (dataLines ls)[k]? = some l →
        st'.dayf.elem (st.index.toNat + k) = pf (fracField l)) ∧
      (∀ l ∈ dataLines ls, 54 ≤ l.length) ∧
      (st.index = 0 → ∀ l, (dataLines ls).head? = some l →
        ¬ (outField l = 0 ∨ outField l > 130) ∧ ¬ (inField l = 0 ∨ inField l > 110)) := by
  intro ls
  induction ls with
  | nil =>
    intro st st' h h0 h1
    have e : st' = st := (Option.some.inj h).symm
    subst e
    simp [dataLines, fillFrom, h1]
  | cons l ls ih =>
    intro st st' h h0 h1
    unfold scanLines at h
    cases hl : scanLine pf st l with
    | none => rw [hl] at h; exact absurd h (by simp)
    | some st1 =>
      rw [hl] at h
      simp only at h
      cases l with
      | nil => exact absurd hl (by simp [scanLine])
      | cons c t =>
        unfold scanLine at hl
        simp only at hl
        by_cases hc : c = 'D'
        · rw [if_pos hc] at hl
          have e : st1 = st := (Option.some.inj hl).symm
          subst e hc
          rw [dataLines_cons_header]
          exact ih st1 st' h h0 h1
        · rw [if_neg hc] at hl
          have ds := scanData_eq_some hl
          have i1 : st1.index = st.index + 1 := ds.index
          have t1 : (st1.index - 1).toNat = st.index.toNat := by rw [i1]; congr 1; omega
          have t2 : st1.index.toNat = st.index.toNat + 1 := by rw [i1]; omega
          have hidx1 := ds.idx1
          obtain ⟨a1, a2, a3, a4, a5, a6, a7, a8, _⟩ :=
            ih st1 st' h (by rw [i1]; omega) (by rw [i1]; omega)
          rw [dataLines_cons_data hc]
          refine ⟨?_, a2, ?_, ?_, ?_, ?_, ?_, ?_, ?_⟩
          · rw [a1, i1]; simp only [List.length_cons]; push_cast; omega
          · rw [a3, t1, ds.items1, ds.inAt]
            simp [fillFrom]
          · rw [a4, t1, ds.items2, ds.outAt]
            simp [fillFrom]
          · rw [a5, ds.items3]
            simp
          · intro j hj
            rw [a6 j (by omega), ds.dayfRest j (by omega)]
          · intro k l' hk
            cases k with
            | zero =>
              simp only [List.getElem?_cons_zero, Option.some.injEq] at hk
              subst hk
              rw [Nat.add_zero, a6 _ (by omega), ds.dayfAt]
            | succ k' =>
              simp only [List.getElem?_cons_succ] at hk
              have := a7 k' l' hk
              rw [t2] at this
              rw [← this]
              congr 1
              omega
          · intro l' hl'
            rcases List.mem_cons.mp hl' with e | e
            · rw [e]; exact ds.len
            · exact a8 l' e
          · intro hz l' hl'
            simp only [List.head?_cons, Option.some.injEq] at hl'
            subst hl'
            constructor
            · intro hb; have := ds.outOk hb; omega
            · intro hb; have := ds.inOk hb; omega

/-- The loop does not panic on an archive of well-formed lines that fits the buffers and
whose first data record is plausible. -/
theorem scanLines_total {F : Type} (pf : GoString → F) :
    ∀ (ls : List GoString) (st : ScanState F),
      0 ≤ st.index → st.index + ((dataLines ls).length : Int) ≤ 2000 →
      (∀ l ∈ ls, l ≠ []) → (∀ l ∈ dataLines ls, 54 ≤ l.length) →
      (st.index = 0 → ∀ l, (dataLines ls).head? = some l →
        ¬ (outField l = 0 ∨ outField l > 130) ∧ ¬ (inField l = 0 ∨ inField l > 110)) →
      ∃ st', scanLines pf st ls = some st' := by
  intro ls
  induction ls with
  | nil =>
    intro st _ _ _ _ _
    exact ⟨st, rfl⟩
  | cons l ls ih =>
    intro st h0 hcap hne hlen hfirst
    cases l with
    | nil => exact absurd rfl (hne [] (List.mem_cons_self _ _))
    | cons c t =>
      have hne' : ∀ l ∈ ls, l ≠ [] := fun l hl => hne l (List.mem_cons_of_mem _ hl)
      unfold scanLines scanLine
      simp only
      by_cases hc : c = 'D'
      · subst hc
        rw [dataLines_cons_header] at hcap hlen hfirst
        rw [if_pos rfl]
        simp only
        exact ih st h0 hcap hne' hlen hfirst
      · rw [dataLines_cons_data hc] at hcap hlen hfirst
        rw [if_neg hc]
        simp only [List.length_cons] at hcap
        push_cast at hcap
        have hl54 : 54 ≤ (c :: t).length := hlen _ (List.mem_cons_self _ _)
        have hout : (outField (c :: t) = 0 ∨ outField (c :: t) > 130) → 1 ≤ st.index := by
          intro hb
          by_contra hlt
          have hz : st.index = 0 := by omega
          exact (hfirst hz _ rfl).1 hb
        have hin : (inField (c :: t) = 0 ∨ inField (c :: t) > 110) → 1 ≤ st.index := by
          intro hb
          by_contra hlt
          have hz : st.index = 0 := by omega
          exact (hfirst hz _ rfl).2 hb
        obtain ⟨st1, e1⟩ := scanData_total pf st (c :: t) h0 (by omega) hl54 hout hin
        rw [e1]
        simp only
        have i1 : st1.index = st.index + 1 := (scanData_eq_some e1).index
        exact ih st1 (by omega) (by omega) hne'
          (fun l hl => hlen l (List.mem_cons_of_mem _ hl))
          (fun hz => by omega)

theorem fillFrom_length (c : Int) : ∀ (ps : List Int) (prev : Int),
    (fillFrom c prev ps).length = ps.length := by
  intro ps
  induction ps with
  | nil => intro prev; rfl
  | cons p ps ih => intro prev; simp [fillFrom, ih]

/-- Forward fill, position by position: from the second record on, an implausible
parsed value is replaced by the element before it, any other value is kept. -/
theorem fillFrom_getElem?_succ (c : Int) : ∀ (ps : List Int) (prev : Int) (k : Nat),
    k + 1 < ps.length →
    (fillFrom c prev ps)[k + 1]? =
      if ps.getD (k + 1) 0 = 0 ∨ ps.getD (k + 1) 0 > c then (fillFrom c prev ps)[k]?
      else some (ps.getD (k + 1) 0) := by
  intro ps
  induction ps with
  | nil => intro prev k hk; simp at hk
  | cons p ps ih =>
    intro prev k hk
    cases k with
    | zero =>
      cases ps with
      | nil => simp at hk
      | cons q qs =>
        simp only [fillFrom, List.getElem?_cons_succ, List.getElem?_cons_zero, List.getD_cons_succ,
          List.getD_cons_zero, carry, Nat.zero_add]
        split <;> rfl
    | succ k' =>
      simp only [List.length_cons] at hk
      have := ih (carry c prev p) k' (by omega)
      simp only [fillFrom, List.getElem?_cons_succ, List.getD_cons_succ]
      exact this

/-- The first element of a forward fill whose first parsed value is plausible is that
value, whatever the buffer held before. -/
theorem fillFrom_head (c prev p : Int) (ps : List Int) (h : ¬ (p = 0 ∨ p > c)) :
    fillFrom c prev (p :: ps) = p :: fillFrom c p ps := by
  simp only [fillFrom, carry, if_neg h]

/-! ## Claims about the reconstruction loop -/

/-- C1. Forward fill in the rotation job's reconstruction. For every archive whose first
data record has plausible temperature fields: the loop runs to its end whenever the lines
are well formed (non-empty, data lines of at least 54 bytes) and there are at most 2000
data records; and the series it builds (`items2` outdoor, `items1` indoor) have one value
per data record, start with the parsed value of the first record, and at every later
position hold the value before it when the parsed field is zero or above the ceiling
(130 outdoor, 110 indoor) and the parsed field otherwise. In particular indoor fields
72, 0, 74 reconstruct to 72, 72, 74 and outdoor fields 68, 999, 70 to 68, 68, 70. -/
theorem forward_fill_reconstruction {F : Type} (pf : GoString → F) (dayf : Buf F)
    (inTmp outTmp motRPM : Buf Int) (archive : List GoString)
    (hfirst : firstPlausible archive) :
    ((∀ l ∈ archive, l ≠ []) → (∀ l ∈ dataLines archive, 54 ≤ l.length) →
        (dataLines archive).length ≤ 2000 →
        ∃ st, scanLines pf (ScanState.start dayf inTmp outTmp motRPM) archive = some st) ∧
    (∀ st, scanLines pf (ScanState.start dayf inTmp outTmp motRPM) archive = some st →
      st.items1.length = (dataLines archive).length ∧
      st.items2.length = (dataLines archive).length ∧
      (∀ l, (dataLines archive).head? = some l →
        st.items1[0]? = some (inField l) ∧ st.items2[0]? = some (outField l)) ∧
      ∀ k, k + 1 < (dataLines archive).length →
        st.items2[k + 1]? =
          (if ((dataLines archive).map outField).getD (k + 1) 0 = 0 ∨
              ((dataLines archive).map outField).getD (k + 1) 0 > 130
           then st.items2[k]?
           else some (((dataLines archive).map outField).getD (k + 1) 0)) ∧
        st.items1[k + 1]? =
          (if ((dataLines archive).map inField).getD (k + 1) 0 = 0 ∨
              ((dataLines archive).map inField).getD (k + 1) 0 > 110
           then st.items1[k]?
           else some (((dataLines archive).map inField).getD (k + 1) 0))) ∧
    (scanLines (fun s => s) freshStart sampleArchive).map (fun st => (st.items1, st.items2))
      = some ([72, 72, 74], [68, 68, 70]) := by
  refine ⟨?_, ?_, by decide⟩
  · intro hne hlen hcap
    exact scanLines_total pf archive _ (le_refl _)
      (by simp only [ScanState.start]; omega) hne hlen (fun _ => hfirst)
  · intro st hst
    obtain ⟨_, _, h1, h2, _, _, _, _, _⟩ :=
      scanLines_spec pf archive _ st hst (le_refl _) (by simp [ScanState.start])
    simp only [ScanState.start, List.nil_append] at h1 h2
    refine ⟨by rw [h1, fillFrom_length, List.length_map],
      by rw [h2, fillFrom_length, List.length_map], ?_, ?_⟩
    · intro l hl
      obtain ⟨ho, hi⟩ := hfirst l hl
      cases hd : dataLines archive with
      | nil => rw [hd] at hl; simp at hl
      | cons x xs =>
        rw [hd] at hl
        simp only [List.head?_cons, Option.some.injEq] at hl
        subst hl
        rw [h1, h2, hd]
        simp only [List.map_cons]
        rw [fillFrom_head _ _ _ _ hi, fillFrom_head _ _ _ _ ho]
        exact ⟨List.getElem?_cons_zero, List.getElem?_cons_zero⟩
    · intro k hk
      rw [h1, h2]
      exact ⟨fillFrom_getElem?_succ 130 _ _ k (by rw [List.length_map]; exact hk),
        fillFrom_getElem?_succ 110 _ _ k (by rw [List.length_map]; exact hk)⟩

theorem sampleArchive_firstPlausible : firstPlausible sampleArchive := by
  intro l hl
  have e : (dataLines sampleArchive).head? = some (sampleLine "0068" "0072" "0150") := by decide
  rw [e] at hl
  have e2 := Option.some.inj hl
  subst e2
  decide

/-- Witness for C1: the archive with outdoor fields 68, 999, 70 and indoor fields
72, 0, 74 has a plausible first record, and the theorem applies to it. -/
theorem forward_fill_reconstruction_witness :
    firstPlausible sampleArchive ∧
    ∃ st, scanLines (fun s => s) freshStart sampleArchive = some st ∧
      st.items1.length = 3 ∧ st.items2.length = 3 :=
  ⟨sampleArchive_firstPlausible, by
    have h := forward_fill_reconstruction (fun s => s) ⟨fun _ => []⟩ zeroBuf zeroBuf zeroBuf
      sampleArchive sampleArchive_firstPlausible
    obtain ⟨st, hst⟩ := h.1 (by decide) (by decide) (by decide)
    exact ⟨st, hst, (h.2.1 st hst).1, (h.2.1 st hst).2.1⟩⟩

/-- C2. When the first data record of the archive has an outdoor or indoor temperature
field that is zero or above its ceiling, the reconstruction does not use that value
as-is: the forward fill reads `outTmp[index-1]` (or `inTmp[index-1]`) with `index = 0`,
an out-of-range access, so the loop panics and no chart is produced. -/
theorem first_record_sentinel_panics {F : Type} (pf : GoString → F) (dayf : Buf F)
    (inTmp outTmp motRPM : Buf Int) (archive : List GoString) (l : GoString)
    (hl : (dataLines archive).head? = some l)
    (hbad : (outField l = 0 ∨ outField l > 130) ∨ (inField l = 0 ∨ inField l > 110)) :
    scanLines pf (ScanState.start dayf inTmp outTmp motRPM) archive = none ∧
    reconstruct pf (ScanState.start dayf inTmp outTmp motRPM) archive = none := by
  have hnone : scanLines pf (ScanState.start dayf inTmp outTmp motRPM) archive = none := by
    cases hs : scanLines pf (ScanState.start dayf inTmp outTmp motRPM) archive with
    | none => rfl
    | some st =>
      obtain ⟨_, _, _, _, _, _, _, _, hp⟩ :=
        scanLines_spec pf archive _ st hs (le_refl _) (by simp [ScanState.start])
      obtain ⟨ho, hi⟩ := hp rfl l hl
      rcases hbad with hb | hb
      · exact absurd hb ho
      · exact absurd hb hi
  refine ⟨hnone, ?_⟩
  unfold reconstruct
  rw [hnone]

/-- Witness for C2: an archive whose first record has outdoor temperature field `0000`. -/
theorem first_record_sentinel_panics_witness :
    (dataLines sentinelFirstArchive).head? = some (sampleLine "0000" "0072" "0150") ∧
    outField (sampleLine "0000" "0072" "0150") = 0 ∧
    scanLines (fun s => s) freshStart sentinelFirstArchive = none ∧
    reconstruct (fun s => s) freshStart sentinelFirstArchive = none :=
  ⟨by decide, by decide,
    first_record_sentinel_panics (fun s => s) ⟨fun _ => []⟩ zeroBuf zeroBuf zeroBuf
      sentinelFirstArchive (sampleLine "0000" "0072" "0150") (by decide)
      (Or.inl (Or.inl (by decide)))⟩

/-- C3. Fan-speed bucketing in the rotation job is the step function of the parsed motor
RPM `r`: 0 below 200, 34 from 200 to 549, 66 from 550 to 749, 100 from 750 on, for
every integer `r`; the third series of a reconstructed archive is that function of
bytes 50 to 53 of each data record; and 150, 400, 600, 900 map to 0, 34, 66, 100. -/
theorem fan_bucket_step_function (r : Int) :
    (r < 200 → fanBucket r = 0) ∧
    (200 ≤ r → r < 550 → fanBucket r = 34) ∧
    (550 ≤ r → r < 750 → fanBucket r = 66) ∧
    (750 ≤ r → fanBucket r = 100) ∧
    (∀ (F : Type) (pf : GoString → F) (archive : List GoString) (st0 st : ScanState F),
      st0.index = 0 → st0.items3 = [] → scanLines pf st0 archive = some st →
      st.items3 = (dataLines archive).map (fun l => fanBucket (rpmField l))) ∧
    fanBucket 150 = 0 ∧ fanBucket 400 = 34 ∧ fanBucket 600 = 66 ∧ fanBucket 900 = 100 := by
  refine ⟨?_, ?_, ?_, ?_, ?_, by decide, by decide, by decide, by decide⟩
  · intro h
    simp only [fanBucket, if_pos h]
  · intro h1 h2
    simp only [fanBucket, if_neg (not_lt.mpr h1), if_pos h2]
  · intro h1 h2
    have h3 : ¬ r < 200 := by omega
    simp only [fanBucket, if_neg h3, if_neg (not_lt.mpr h1), if_pos h2]
  · intro h1
    have h2 : ¬ r < 200 := by omega
    have h3 : ¬ r < 550 := by omega
    simp only [fanBucket, if_neg h2, if_neg h3, if_neg (not_lt.mpr h1)]
  · intro F pf archive st0 st h0 h3 hs
    obtain ⟨_, _, _, _, e, _⟩ :=
      scanLines_spec pf archive st0 st hs (by omega) (by omega)
    rw [e, h3, List.nil_append]

/-- Witness for C3: the four sample speeds and the third series of the sample archive. -/
theorem fan_bucket_step_function_witness :
    fanBucket 150 = 0 ∧ fanBucket 400 = 34 ∧ fanBucket 600 = 66 ∧ fanBucket 900 = 100 ∧
    ∃ st, scanLines (fun s => s) freshStart sampleArchive = some st ∧
      st.items3 = [0, 34, 100] := by
  refine ⟨(fan_bucket_step_function 150).1 (by decide),
    (fan_bucket_step_function 400).2.1 (by decide) (by decide),
    (fan_bucket_step_function 600).2.2.1 (by decide) (by decide),
    (fan_bucket_step_function 900).2.2.2.1 (by decide), ?_⟩
  cases hs : scanLines (fun s => s) freshStart sampleArchive with
  | none =>
    have hsome : (scanLines (fun s => s) freshStart sampleArchive).isSome = true := by decide
    rw [hs] at hsome
    exact absurd hsome (by decide)
  | some st =>
    refine ⟨st, rfl, ?_⟩
    rw [(fan_bucket_step_function 0).2.2.2.2.1 GoString (fun s => s) sampleArchive freshStart st
      rfl rfl hs]
    decide

theorem upTo_eq_some {α : Type} {b : Buf α} {hi : Int} {xs : List α}
    (h : b.upTo hi = some xs) : 0 ≤ hi ∧ xs = (List.range hi.toNat).map b.elem := by
  unfold Buf.upTo at h
  split at h
  · rename_i hc
    exact ⟨hc.1, (Option.some.inj h).symm⟩
  · exact absurd h (by simp)

theorem itemsUpTo_eq_some {α : Type} {xs ys : List α} {hi : Int}
    (h : itemsUpTo xs hi = some ys) : 0 ≤ hi ∧ ys = xs.take hi.toNat := by
  unfold itemsUpTo at h
  split at h
  · rename_i hc
    exact ⟨hc.1, (Option.some.inj h).symm⟩
  · exact absurd h (by simp)

theorem chartInput_eq_some {F : Type} {st : ScanState F} {ch : ChartInput F}
    (h : chartInput st = some ch) :
    1 ≤ st.index ∧
      ch.xAxis = (List.range (st.index - 1).toNat).map st.dayf.elem ∧
      ch.indoor = st.items1.take (st.index - 1).toNat ∧
      ch.outdoor = st.items2.take (st.index - 1).toNat ∧
      ch.fan = st.items3.take (st.index - 1).toNat := by
  unfold chartInput at h
  cases h0 : st.dayf.upTo (st.index - 1) with
  | none => rw [h0] at h; exact absurd h (by simp)
  | some xs =>
    cases h1 : itemsUpTo st.items1 (st.index - 1) with
    | none => rw [h0, h1] at h; exact absurd h (by simp)
    | some i1 =>
      cases h2 : itemsUpTo st.items2 (st.index - 1) with
      | none => rw [h0, h1, h2] at h; exact absurd h (by simp)
      | some i2 =>
        cases h3 : itemsUpTo st.items3 (st.index - 1) with
        | none => rw [h0, h1, h2, h3] at h; exact absurd h (by simp)
        | some i3 =>
          rw [h0, h1, h2, h3] at h
          simp only [Option.bind] at h
          have e := Option.some.inj h
          subst e
          obtain ⟨hp, e0⟩ := upTo_eq_some h0
          exact ⟨by omega, e0, (itemsUpTo_eq_some h1).2, (itemsUpTo_eq_some h2).2,
            (itemsUpTo_eq_some h3).2⟩

theorem range_map_eq_take {α : Type} (f : Nat → α) (xs : List α) (m : Nat) (hm : m ≤ xs.length)
    (h : ∀ k x, xs[k]? = some x → f k = x) : (List.range m).map f = xs.take m := by
  apply List.ext_getElem?
  intro k
  by_cases hk : k < m
  · have hk2 : k < xs.length := by omega
    rw [List.getElem?_map, List.getElem?_range hk, List.getElem?_take_of_lt hk,
      List.getElem?_eq_getElem hk2]
    simp only [Option.map_some']
    rw [h k _ (List.getElem?_eq_getElem hk2)]
  · rw [List.getElem?_eq_none (by simp; omega), List.getElem?_eq_none (by simp; omega)]

/-- C10. The chart does not receive one point per archived data record: the x axis and
the three series are sliced with `[0:index-1]`, so for an archive with `n >= 1` data
lines the renderer gets the values of the first `n - 1` records only (the last record is
dropped), and for an archive with no data line the slice `[0:-1]` is out of range and
the job panics. -/
theorem chart_drops_last_record {F : Type} (pf : GoString → F) (dayf : Buf F)
    (inTmp outTmp motRPM : Buf Int) (archive : List GoString) :
    ((dataLines archive).length = 0 →
      reconstruct pf (ScanState.start dayf inTmp outTmp motRPM) archive = none) ∧
    (∀ ch, reconstruct pf (ScanState.start dayf inTmp outTmp motRPM) archive = some ch →
      ch.xAxis.length + 1 = (dataLines archive).length ∧
      ch.indoor.length + 1 = (dataLines archive).length ∧
      ch.outdoor.length + 1 = (dataLines archive).length ∧
      ch.fan.length + 1 = (dataLines archive).length ∧
      ch.xAxis = ((dataLines archive).map (fun l => pf (fracField l))).dropLast ∧
      ch.fan = ((dataLines archive).map (fun l => fanBucket (rpmField l))).dropLast) ∧
    reconstruct (fun s => s) freshStart [headerLine] = none ∧
    reconstruct (fun s => s) freshStart [headerLine, sampleLine "0068" "0072" "0150"] =
      some { xAxis := [], indoor := [], outdoor := [], fan := [] } ∧
    reconstruct (fun s => s) freshStart sampleArchive =
      some { xAxis := ["0001.0028".toList, "0001.0028".toList], indoor := [72, 72],
             outdoor := [68, 68], fan := [0, 34] } := by
  have key : ∀ st ch, scanLines pf (ScanState.start dayf inTmp outTmp motRPM) archive = some st →
      chartInput st = some ch →
      1 ≤ (dataLines archive).length ∧
      ch.xAxis = ((dataLines archive).map (fun l => pf (fracField l))).take
        ((dataLines archive).length - 1) ∧
      ch.indoor.length = (dataLines archive).length - 1 ∧
      ch.outdoor.length = (dataLines archive).length - 1 ∧
      ch.fan = ((dataLines archive).map (fun l => fanBucket (rpmField l))).take
        ((dataLines archive).length - 1) := by
    intro st ch hs hc
    obtain ⟨hx, _, h1, h2, h3, _, h7, _, _⟩ :=
      scanLines_spec pf archive _ st hs (le_refl _) (by simp [ScanState.start])
    simp only [ScanState.start, List.nil_append, Int.zero_add, Int.toNat_zero, Nat.zero_add]
      at hx h1 h2 h3 h7
    obtain ⟨hpos, c0, c1, c2, c3⟩ := chartInput_eq_some hc
    have hn : (st.index - 1).toNat = (dataLines archive).length - 1 := by rw [hx]; omega
    rw [hn] at c0 c1 c2 c3
    refine ⟨by rw [hx] at hpos; omega, ?_, ?_, ?_, ?_⟩
    · rw [c0]
      apply range_map_eq_take _ _ _ (by rw [List.length_map]; omega)
      intro k x hk
      rw [List.getElem?_map] at hk
      cases hl : (dataLines archive)[k]? with
      | none => rw [hl] at hk; simp at hk
      | some l =>
        rw [hl] at hk
        simp only [Option.map_some', Option.some.injEq] at hk
        rw [← hk]
        exact h7 k l hl
    · rw [c1, h1, List.length_take, fillFrom_length, List.length_map]; omega
    · rw [c2, h2, List.length_take, fillFrom_length, List.length_map]; omega
    · rw [c3, h3]
  refine ⟨?_, ?_, by decide, by decide, by decide⟩
  · intro hz
    unfold reconstruct
    cases hs : scanLines pf (ScanState.start dayf inTmp outTmp motRPM) archive with
    | none => rfl
    | some st =>
      simp only
      cases hc : chartInput st with
      | none => rfl
      | some ch =>
        have := (key st ch hs hc).1
        omega
  · intro ch hch
    unfold reconstruct at hch
    cases hs : scanLines pf (ScanState.start dayf inTmp outTmp motRPM) archive with
    | none => rw [hs] at hch; exact absurd hch (by simp)
    | some st =>
      rw [hs] at hch
      simp only at hch
      obtain ⟨hpos, k0, k1, k2, k3⟩ := key st ch hs hch
      refine ⟨?_, ?_, ?_, ?_, ?_, ?_⟩
      · rw [k0, List.length_take, List.length_map]; omega
      · omega
      · omega
      · rw [k3, List.length_take, List.length_map]; omega
      · rw [k0, List.dropLast_eq_take, List.length_map]
      · rw [k3, List.dropLast_eq_take, List.length_map]

/-- Witness for C10: an archive holding only the header line has no data line, and the
job panics on it. -/
theorem chart_drops_last_record_witness :
    (dataLines [headerLine]).length = 0 ∧
    reconstruct (fun s => s) freshStart [headerLine] = none :=
  ⟨by decide,
    (chart_drops_last_record (fun s => s) ⟨fun _ => []⟩ zeroBuf zeroBuf zeroBuf
      [headerLine]).1 (by decide)⟩

/-! ## Properties of `makeTableHTMLfiles` -/

theorem tableLoop_spec (fp : GoString) : ∀ (files : List GoString) (st : Nat × List GoString),
    (∀ f ∈ files, f ≠ []) →
    tableLoop fp st files =
      some (st.1 + (files.filter qualifies).length,
            st.2 ++ emit fp st.1 (files.filter qualifies)) := by
  intro files
  induction files with
  | nil => intro st _; simp [tableLoop, emit]
  | cons f fs ih =>
    intro st hne
    have hne' : ∀ g ∈ fs, g ≠ [] := fun g hg => hne g (List.mem_cons_of_mem _ hg)
    cases f with
    | nil => exact absurd rfl (hne [] (List.mem_cons_self _ _))
    | cons c t =>
      unfold tableLoop tableStep
      simp only
      by_cases hq : qualifies (c :: t) = true
      · rw [if_pos hq]
        simp only
        rw [ih _ hne', List.filter_cons_of_pos hq]
        simp only [List.length_cons, emit]
        congr 1
        refine Prod.ext (by simp only; omega) ?_
        simp only
        by_cases hp : st.1 % 2 = 0
        · simp [hp]
        · simp [hp]
      · rw [if_neg hq]
        simp only
        rw [ih _ hne', List.filter_cons_of_neg hq]

theorem emit_add_two (fp : GoString) : ∀ (xs : List GoString) (i : Nat),
    emit fp (i + 2) xs = emit fp i xs := by
  intro xs
  induction xs with
  | nil => intro i; rfl
  | cons x xs ih =>
    intro i
    have h := ih (i + 1)
    have e : i + 2 + 1 = i + 1 + 2 := by omega
    simp only [emit, Nat.add_mod_right, e, h]

theorem emit_rows (fp : GoString) : ∀ (q : List GoString),
    emit fp 0 q ++ (if q.length % 2 = 1 then [rowClose] else []) =
      ((rowsOf q).map (renderRow fp)).flatten
  | [] => by simp [emit, rowsOf]
  | [a] => by simp [emit, rowsOf, renderRow]
  | a :: b :: rest => by
    have ih := emit_rows fp rest
    have e2 : emit fp (0 + 1 + 1) rest = emit fp 0 rest := emit_add_two fp rest 0
    have hl : (a :: b :: rest).length % 2 = rest.length % 2 := by
      simp only [List.length_cons]; omega
    simp only [emit, rowsOf, renderRow, List.map_cons, List.flatten_cons, hl, e2]
    rw [← ih]
    simp

theorem rowsOf_flatten : ∀ (q : List GoString), (rowsOf q).flatten = q
  | [] => rfl
  | [_] => rfl
  | a :: b :: rest => by
    simp only [rowsOf, List.flatten_cons, rowsOf_flatten rest]
    rfl

theorem rowsOf_length : ∀ (q : List GoString), (rowsOf q).length = (q.length + 1) / 2
  | [] => rfl
  | [_] => by simp [rowsOf]
  | a :: b :: rest => by
    simp only [rowsOf, List.length_cons, rowsOf_length rest]
    omega

theorem rowsOf_dropLast : ∀ (q : List GoString), ∀ r ∈ (rowsOf q).dropLast, r.length = 2
  | [] => by simp [rowsOf]
  | [_] => by simp [rowsOf]
  | a :: b :: rest => by
    intro r hr
    cases hrest : rowsOf rest with
    | nil =>
      simp [rowsOf, hrest] at hr
    | cons x xs =>
      simp only [rowsOf, hrest, List.dropLast_cons₂, List.mem_cons] at hr
      rcases hr with e | e
      · rw [e]; rfl
      · exact rowsOf_dropLast rest r (by rw [hrest]; exact e)

theorem rowsOf_getLast : ∀ (q : List GoString) (r : List GoString),
    (rowsOf q).getLast? = some r → r.length = if q.length % 2 = 1 then 1 else 2
  | [], r => by simp [rowsOf]
  | [a], r => by
    intro h
    simp [rowsOf] at h
    rw [← h]; rfl
  | a :: b :: rest, r => by
    intro h
    have hl : (a :: b :: rest).length % 2 = rest.length % 2 := by
      simp only [List.length_cons]; omega
    rw [hl]
    cases hrest : rowsOf rest with
    | nil =>
      have hnil : rest = [] := by
        cases rest with
        | nil => rfl
        | cons x xs =>
          cases xs with
          | nil => simp [rowsOf] at hrest
          | cons y ys => simp [rowsOf] at hrest
      simp [rowsOf, hrest] at h
      rw [← h, hnil]; rfl
    | cons x xs =>
      have h2 : (rowsOf rest).getLast? = some r := by
        simp only [rowsOf, hrest, List.getLast?_cons_cons] at h
        rw [hrest]; exact h
      exact rowsOf_getLast rest r h2

theorem countP_map_of_true {α β : Type} (p : β → Bool) (f : α → β) (h : ∀ x, p (f x) = true) :
    ∀ xs : List α, (xs.map f).countP p = xs.length := by
  intro xs
  induction xs with
  | nil => rfl
  | cons x xs ih => simp only [List.map_cons, List.countP_cons, ih, h x, if_true, List.length_cons]

theorem countP_map_of_false {α β : Type} (p : β → Bool) (f : α → β)
    (h : ∀ x, p (f x) = false) : ∀ xs : List α, (xs.map f).countP p = 0 := by
  intro xs
  induction xs with
  | nil => rfl
  | cons x xs ih => simp [List.countP_cons, ih, h x]

theorem isCell_cell (fp x : GoString) : isCell (cell fp x) = true := rfl

theorem cell_ne_rowOpen (fp x : GoString) : (cell fp x == rowOpen) = false := rfl

theorem cell_ne_rowClose (fp x : GoString) : (cell fp x == rowClose) = false := rfl

theorem countP_rows_cell (fp : GoString) : ∀ rows : List (List GoString),
    ((rows.map (renderRow fp)).flatten).countP isCell = rows.flatten.length := by
  intro rows
  induction rows with
  | nil => rfl
  | cons r rs ih =>
    simp only [List.map_cons, List.flatten_cons, List.countP_append, ih, List.length_append,
      renderRow, countP_map_of_true isCell (cell fp) (isCell_cell fp)]
    have h1 : List.countP isCell [rowOpen] = 0 := by decide
    have h2 : List.countP isCell [rowClose] = 0 := by decide
    omega

theorem countP_rows_open (fp : GoString) : ∀ rows : List (List GoString),
    ((rows.map (renderRow fp)).flatten).countP (fun s => s == rowOpen) = rows.length := by
  intro rows
  induction rows with
  | nil => rfl
  | cons r rs ih =>
    simp only [List.map_cons, List.flatten_cons, List.countP_append, ih, List.length_cons,
      renderRow, countP_map_of_false (fun s => s == rowOpen) (cell fp) (cell_ne_rowOpen fp)]
    have h1 : List.countP (fun s => s == rowOpen) [rowOpen] = 1 := by decide
    have h2 : List.countP (fun s => s == rowOpen) [rowClose] = 0 := by decide
    omega

theorem countP_rows_close (fp : GoString) : ∀ rows : List (List GoString),
    ((rows.map (renderRow fp)).flatten).countP (fun s => s == rowClose) = rows.length := by
  intro rows
  induction rows with
  | nil => rfl
  | cons r rs ih =>
    simp only [List.map_cons, List.flatten_cons, List.countP_append, ih, List.length_cons,
      renderRow, countP_map_of_false (fun s => s == rowClose) (cell fp) (cell_ne_rowClose fp)]
    have h1 : List.countP (fun s => s == rowClose) [rowOpen] = 0 := by decide
    have h2 : List.countP (fun s => s == rowClose) [rowClose] = 1 := by decide
    omega

theorem countP_frame (p : GoString → Bool) (ts : GoString) (tableOnly : Bool)
    (h1 : p (headComment ts) = false) (h2 : p (headTitle ts) = false)
    (h3 : p (headHeading ts) = false) (h4 : p tableOpen = false) (h5 : p tableClose = false)
    (h6 : p pageClose = false) (body : List GoString) :
    (pageHead ts tableOnly ++ [tableOpen] ++ body ++ [tableClose] ++ pageTail tableOnly).countP p
      = body.countP p := by
  cases tableOnly <;>
    simp [pageHead, pageTail, List.countP_append, List.countP_cons, h1, h2, h3, h4, h5, h6]

/-- C4. Index table parity in `makeTableHTMLfiles`. For every directory listing (names
non-empty, as directory entries are) with `n` qualifying files (last byte `l`, first
byte not `h`): the function writes the page head, the table tag, then one rendered row
(row-open tag, cells, row-close tag) per group of `rowsOf`, then the closing tags; the
groups are the qualifying names in order, there are `ceil(n/2)` of them, every group
but the last has two names and the last has one exactly when `n` is odd; so the output
has `n` link cells, `ceil(n/2)` row-open tags and as many row-close tags. -/
theorem index_table_parity (fp ts : GoString) (tableOnly : Bool) (files : List GoString)
    (hne : ∀ f ∈ files, f ≠ []) :
    ∃ out, makeTableHTMLfiles fp ts tableOnly (some files) = some out ∧
      out = pageHead ts tableOnly ++ [tableOpen] ++
        ((rowsOf (files.filter qualifies)).map (renderRow fp)).flatten ++
        [tableClose] ++ pageTail tableOnly ∧
      (rowsOf (files.filter qualifies)).flatten = files.filter qualifies ∧
      (rowsOf (files.filter qualifies)).length = ((files.filter qualifies).length + 1) / 2 ∧
      (∀ r ∈ (rowsOf (files.filter qualifies)).dropLast, r.length = 2) ∧
      (∀ r, (rowsOf (files.filter qualifies)).getLast? = some r →
        r.length = if (files.filter qualifies).length % 2 = 1 then 1 else 2) ∧
      out.countP isCell = (files.filter qualifies).length ∧
      out.countP (fun s => s == rowOpen) = ((files.filter qualifies).length + 1) / 2 ∧
      out.countP (fun s => s == rowClose) = ((files.filter qualifies).length + 1) / 2 := by
  have hout : makeTableHTMLfiles fp ts tableOnly (some files) =
      some (pageHead ts tableOnly ++ [tableOpen] ++
        ((rowsOf (files.filter qualifies)).map (renderRow fp)).flatten ++
        [tableClose] ++ pageTail tableOnly) := by
    unfold makeTableHTMLfiles
    simp only
    rw [tableLoop_spec fp files _ hne]
    simp only [Nat.zero_add]
    rw [← emit_rows fp (files.filter qualifies)]
    by_cases hp : (files.filter qualifies).length % 2 = 1
    · simp [hp]
    · simp [hp]
  refine ⟨_, hout, rfl, rowsOf_flatten _, rowsOf_length _, rowsOf_dropLast _, rowsOf_getLast _,
    ?_, ?_, ?_⟩
  · rw [countP_frame isCell ts tableOnly rfl rfl rfl rfl rfl rfl, countP_rows_cell,
      rowsOf_flatten]
  · rw [countP_frame (fun s => s == rowOpen) ts tableOnly rfl rfl rfl rfl rfl rfl,
      countP_rows_open, rowsOf_length]
  · rw [countP_frame (fun s => s == rowClose) ts tableOnly rfl rfl rfl rfl rfl rfl,
      countP_rows_close, rowsOf_length]

/-- Witness for C4: five qualifying files give three rows of 2, 2 and 1 cells, four give
two rows of 2 cells; in both listings every name is non-empty. -/
theorem index_table_parity_witness :
    (∀ f ∈ fiveCharts, f ≠ []) ∧ (∀ f ∈ fourCharts, f ≠ []) ∧
    (rowsOf (fiveCharts.filter qualifies)).map List.length = [2, 2, 1] ∧
    (rowsOf (fourCharts.filter qualifies)).map List.length = [2, 2] ∧
    (∃ out, makeTableHTMLfiles "/var/lib/infinitive/".toList [] true (some fiveCharts) = some out ∧
      out.countP isCell = 5 ∧ out.countP (fun s => s == rowOpen) = 3 ∧
      out.countP (fun s => s == rowClose) = 3) ∧
    (∃ out, makeTableHTMLfiles "/var/lib/infinitive/".toList [] true (some fourCharts) = some out ∧
      out.countP isCell = 4 ∧ out.countP (fun s => s == rowOpen) = 2 ∧
      out.countP (fun s => s == rowClose) = 2) := by
  refine ⟨by decide, by decide, by decide, by decide, ?_, ?_⟩
  · obtain ⟨out, h, _, _, _, _, _, c1, c2, c3⟩ :=
      index_table_parity "/var/lib/infinitive/".toList [] true fiveCharts (by decide)
    exact ⟨out, h, c1, c2, c3⟩
  · obtain ⟨out, h, _, _, _, _, _, c1, c2, c3⟩ :=
      index_table_parity "/var/lib/infinitive/".toList [] true fourCharts (by decide)
    exact ⟨out, h, c1, c2, c3⟩

/-! ## Properties of the event decoders -/

theorem getAirHandler_of_blower {c : Cache} {a : AirHandler}
    (h : c.get "blower" = some (Snapshot.blower a)) : getAirHandler c = (a, true) := by
  simp only [getAirHandler, h]

theorem getHeatPump_of_heatpump {c : Cache} {hp : HeatPump}
    (h : c.get "heatpump" = some (Snapshot.heatpump hp)) : getHeatPump c = (hp, true) := by
  simp only [getHeatPump, h]

theorem update_get_same (c : Cache) (k : String) (v : Snapshot) :
    (c.update k v).get k = some v := by
  simp [Cache.update]

theorem update_get_other (c : Cache) {k k' : String} (v : Snapshot) (h : k' ≠ k) :
    (c.update k v).get k' = c.get k' := by
  simp [Cache.update, h]

/-- What the air-handler callback leaves in the store, case by case. -/
theorem snoopAirHandler_store (s : SnoopState) (frame : List Byte) :
    storeAfter (snoopAirHandler s frame) s = s.cache ∨
    (frame.take 3 = [0x00, 0x03, 0x06] ∧ (getAirHandler s.cache).2 = true ∧
      ∃ rpm, storeAfter (snoopAirHandler s frame) s = s.cache.update "blower"
        (Snapshot.blower { (getAirHandler s.cache).1 with BlowerRPM := rpm })) ∨
    (frame.take 3 = [0x00, 0x03, 0x16] ∧ frame.take 3 ≠ [0x00, 0x03, 0x06] ∧
      (getAirHandler s.cache).2 = true ∧
      ∃ cfm eh, storeAfter (snoopAirHandler s frame) s = s.cache.update "blower"
        (Snapshot.blower { (getAirHandler s.cache).1 with AirFlowCFM := cfm, ElecHeat := eh })) := by
  unfold snoopAirHandler
  by_cases hlen : frame.length < 3
  · left; rw [if_pos hlen]; rfl
  · rw [if_neg hlen]
    simp only
    rcases hg : getAirHandler s.cache with ⟨ah, ok⟩
    cases ok with
    | false => left; rfl
    | true =>
      simp only
      by_cases h1 : frame.take 3 = [0x00, 0x03, 0x06]
      · rw [if_pos h1]
        cases hu : uint16At (frame.drop 3) 1 5 with
        | none => left; rfl
        | some rpm => right; left; exact ⟨h1, trivial, rpm, rfl⟩
      · rw [if_neg h1]
        by_cases h2 : frame.take 3 = [0x00, 0x03, 0x16]
        · rw [if_pos h2]
          cases hu : uint16At (frame.drop 3) 4 8 with
          | none => left; rfl
          | some cfm =>
            cases hb : (frame.drop 3)[0]? with
            | none => left; rfl
            | some b => right; right; exact ⟨h2, h1, trivial, cfm, _, rfl⟩
        · rw [if_neg h2]; left; rfl

/-- What the heat-pump callback leaves in the store, case by case. -/
theorem snoopHeatPump_store (s : SnoopState) (frame : List Byte) :
    storeAfter (snoopHeatPump s frame) s = s.cache ∨
    (frame.take 3 = [0x00, 0x3e, 0x01] ∧ (getHeatPump s.cache).2 = true ∧
      ∃ coil outside, storeAfter (snoopHeatPump s frame) s = s.cache.update "heatpump"
        (Snapshot.heatpump
          { (getHeatPump s.cache).1 with CoilTemp := coil, OutsideTemp := outside })) ∨
    (frame.take 3 = [0x00, 0x3e, 0x02] ∧ frame.take 3 ≠ [0x00, 0x3e, 0x01] ∧
      (getHeatPump s.cache).2 = true ∧
      ∃ stage, storeAfter (snoopHeatPump s frame) s = s.cache.update "heatpump"
        (Snapshot.heatpump { (getHeatPump s.cache).1 with Stage := stage })) := by
  unfold snoopHeatPump
  by_cases hlen : frame.length < 3
  · left; rw [if_pos hlen]; rfl
  · rw [if_neg hlen]
    simp only
    rcases hg : getHeatPump s.cache with ⟨hp, ok⟩
    cases ok with
    | false => left; rfl
    | true =>
      simp only
      by_cases h1 : frame.take 3 = [0x00, 0x3e, 0x01]
      · rw [if_pos h1]
        cases hu : uint16At (frame.drop 3) 2 4 with
        | none => left; rfl
        | some coil =>
          cases hu2 : uint16At (frame.drop 3) 0 2 with
          | none => left; rfl
          | some outside => right; left; exact ⟨h1, trivial, _, _, rfl⟩
      · rw [if_neg h1]
        by_cases h2 : frame.take 3 = [0x00, 0x3e, 0x02]
        · rw [if_pos h2]
          cases hb : (frame.drop 3)[0]? with
          | none => left; rfl
          | some b => right; right; exact ⟨h2, h1, trivial, _, rfl⟩
        · rw [if_neg h2]; left; rfl

/-- C5. The event decoders change only the fields carried by the matched sub-message.
For every state of the store and every frame payload: when the store holds an
air-handler snapshot `a`, it holds one afterwards, with `AirFlowCFM` and `ElecHeat` of
`a` after a `00 03 06` frame, with `BlowerRPM` of `a` after a `00 03 16` frame, and `a`
itself after any other frame; a frame with any other signature leaves the whole store as
it was. Likewise for the heat-pump snapshot: `Stage` is kept by a `00 3e 01` frame,
`CoilTemp` and `OutsideTemp` by a `00 3e 02` frame, and any other signature leaves the
store as it was. -/
theorem decoders_field_local (s : SnoopState) (frame : List Byte) :
    (∀ a, s.cache.get "blower" = some (Snapshot.blower a) →
      ∃ a', (storeAfter (snoopAirHandler s frame) s).get "blower" = some (Snapshot.blower a') ∧
        (frame.take 3 = [0x00, 0x03, 0x06] →
          a'.AirFlowCFM = a.AirFlowCFM ∧ a'.ElecHeat = a.ElecHeat) ∧
        (frame.take 3 = [0x00, 0x03, 0x16] → a'.BlowerRPM = a.BlowerRPM) ∧
        (frame.take 3 ≠ [0x00, 0x03, 0x06] → frame.take 3 ≠ [0x00, 0x03, 0x16] → a' = a)) ∧
    (frame.take 3 ≠ [0x00, 0x03, 0x06] → frame.take 3 ≠ [0x00, 0x03, 0x16] →
      storeAfter (snoopAirHandler s frame) s = s.cache) ∧
    (∀ hp, s.cache.get "heatpump" = some (Snapshot.heatpump hp) →
      ∃ hp', (storeAfter (snoopHeatPump s frame) s).get "heatpump" =
          some (Snapshot.heatpump hp') ∧
        (frame.take 3 = [0x00, 0x3e, 0x01] → hp'.Stage = hp.Stage) ∧
        (frame.take 3 = [0x00, 0x3e, 0x02] →
          hp'.CoilTemp = hp.CoilTemp ∧ hp'.OutsideTemp = hp.OutsideTemp) ∧
        (frame.take 3 ≠ [0x00, 0x3e, 0x01] → frame.take 3 ≠ [0x00, 0x3e, 0x02] → hp' = hp)) ∧
    (frame.take 3 ≠ [0x00, 0x3e, 0x01] → frame.take 3 ≠ [0x00, 0x3e, 0x02] →
      storeAfter (snoopHeatPump s frame) s = s.cache) := by
  refine ⟨?_, ?_, ?_, ?_⟩
  · intro a ha
    have hg := getAirHandler_of_blower ha
    rcases snoopAirHandler_store s frame with h | ⟨h1, _, rpm, h⟩ | ⟨h2, h1, _, cfm, eh, h⟩
    · exact ⟨a, by rw [h]; exact ha, fun _ => ⟨rfl, rfl⟩, fun _ => rfl, fun _ _ => rfl⟩
    · rw [hg] at h
      refine ⟨{ a with BlowerRPM := rpm }, by rw [h]; exact update_get_same _ _ _,
        fun _ => ⟨rfl, rfl⟩, ?_, ?_⟩
      · intro h2
        rw [h1] at h2
        exact absurd h2 (by decide)
      · intro hn _
        exact absurd h1 hn
    · rw [hg] at h
      refine ⟨{ a with AirFlowCFM := cfm, ElecHeat := eh },
        by rw [h]; exact update_get_same _ _ _, ?_, fun _ => rfl, ?_⟩
      · intro h3
        exact absurd h3 h1
      · intro _ hn
        exact absurd h2 hn
  · intro n1 n2
    rcases snoopAirHandler_store s frame with h | ⟨h1, _⟩ | ⟨h2, _⟩
    · exact h
    · exact absurd h1 n1
    · exact absurd h2 n2
  · intro hp hhp
    have hg := getHeatPump_of_heatpump hhp
    rcases snoopHeatPump_store s frame with h | ⟨h1, _, coil, outside, h⟩ | ⟨h2, h1, _, st, h⟩
    · exact ⟨hp, by rw [h]; exact hhp, fun _ => rfl, fun _ => ⟨rfl, rfl⟩, fun _ _ => rfl⟩
    · rw [hg] at h
      refine ⟨{ hp with CoilTemp := coil, OutsideTemp := outside },
        by rw [h]; exact update_get_same _ _ _, fun _ => rfl, ?_, ?_⟩
      · intro h2
        rw [h1] at h2
        exact absurd h2 (by decide)
      · intro hn _
        exact absurd h1 hn
    · rw [hg] at h
      refine ⟨{ hp with Stage := st }, by rw [h]; exact update_get_same _ _ _, ?_,
        fun _ => ⟨rfl, rfl⟩, ?_⟩
      · intro h3
        exact absurd h3 h1
      · intro _ hn
        exact absurd h2 hn
  · intro n1 n2
    rcases snoopHeatPump_store s frame with h | ⟨h1, _⟩ | ⟨h2, _⟩
    · exact h
    · exact absurd h1 n1
    · exact absurd h2 n2

/-- Witness for C5: on a store holding RPM 700, 900 CFM, electric heat on, a `00 03 06`
frame carrying RPM 800 stores RPM 800 and keeps 900 CFM and the flag; a `00 03 16` frame
keeps RPM 700; a `00 3e 01` frame keeps heat-pump stage 2. -/
theorem decoders_field_local_witness :
    (getAirHandler (storeAfter (snoopAirHandler sampleStore
        [0x00, 0x03, 0x06, 0x00, 0x03, 0x20, 0x00, 0x00]) sampleStore)) =
      ({ BlowerRPM := 800, AirFlowCFM := 900, ElecHeat := true }, true) ∧
    (∃ a', (storeAfter (snoopAirHandler sampleStore
        [0x00, 0x03, 0x16, 0x00, 0x00, 0x00, 0x00, 0x04, 0xb0, 0x00, 0x00]) sampleStore).get
          "blower" = some (Snapshot.blower a') ∧ a'.BlowerRPM = 700) ∧
    (∃ hp', (storeAfter (snoopHeatPump sampleStore
        [0x00, 0x3e, 0x01, 0x03, 0x00, 0x02, 0x80]) sampleStore).get "heatpump" =
          some (Snapshot.heatpump hp') ∧ hp'.Stage = 2) := by
  refine ⟨by decide, ?_, ?_⟩
  · obtain ⟨a', h, _, h2, _⟩ := (decoders_field_local sampleStore
      [0x00, 0x03, 0x16, 0x00, 0x00, 0x00, 0x00, 0x04, 0xb0, 0x00, 0x00]).1
        { BlowerRPM := 700, AirFlowCFM := 900, ElecHeat := true } (by decide)
    exact ⟨a', h, h2 (by decide)⟩
  · obtain ⟨hp', h, h1, _⟩ := (decoders_field_local sampleStore
      [0x00, 0x3e, 0x01, 0x03, 0x00, 0x02, 0x80]).2.2.1
        { CoilTemp := 81 / 2, OutsideTemp := 221 / 4, Stage := 2 } rfl
    exact ⟨hp', h, h1 (by decide)⟩

/-! ## Properties of the Log Record format -/

theorem decimalAux_lt {fuel n : Nat} {acc : GoString} (hf : 0 < fuel) (h : n < 10) :
    decimalAux fuel n acc = digitChar n :: acc := by
  cases fuel with
  | zero => omega
  | succ f => simp only [decimalAux, if_pos h]

theorem decimalAux_ge {fuel n : Nat} {acc : GoString} (hf : 0 < fuel) (h : 10 ≤ n) :
    decimalAux fuel n acc = decimalAux (fuel - 1) (n / 10) (digitChar (n % 10) :: acc) := by
  cases fuel with
  | zero => omega
  | succ f =>
    have hn : ¬ n < 10 := by omega
    simp only [decimalAux, if_neg hn, Nat.add_sub_cancel]

theorem digitChar_zero : digitChar 0 = '0' := rfl

/-- The verb `%04d` on a value below 10000 writes exactly its four decimal digits. -/
theorem fmtD04_digits (n : Nat) (h : n < 10000) :
    fmtD04 n = [digitChar (n / 1000), digitChar (n / 100 % 10), digitChar (n / 10 % 10),
      digitChar (n % 10)] := by
  unfold fmtD04 decimal
  by_cases h1 : n < 10
  · rw [decimalAux_lt (by omega) h1]
    have e1 : n / 1000 = 0 := by omega
    have e2 : n / 100 % 10 = 0 := by omega
    have e3 : n / 10 % 10 = 0 := by omega
    have e4 : n % 10 = n := by omega
    rw [e1, e2, e3, e4]
    rfl
  · rw [decimalAux_ge (by omega) (by omega)]
    by_cases h2 : n < 100
    · rw [decimalAux_lt (by omega) (by omega)]
      have e1 : n / 1000 = 0 := by omega
      have e2 : n / 100 % 10 = 0 := by omega
      have e3 : n / 10 % 10 = n / 10 := by omega
      rw [e1, e2, e3]
      rfl
    · rw [decimalAux_ge (by omega) (by omega)]
      by_cases h3 : n < 1000
      · rw [decimalAux_lt (by omega) (by omega)]
        have e1 : n / 1000 = 0 := by omega
        have e2 : n / 100 % 10 = n / 10 / 10 := by omega
        have e3 : n / 10 % 10 = n / 10 % 10 := rfl
        rw [e1, e2]
        rfl
      · rw [decimalAux_ge (by omega) (by omega), decimalAux_lt (by omega) (by omega)]
        have e1 : n / 1000 = n / 10 / 10 / 10 := by omega
        have e2 : n / 100 % 10 = n / 10 / 10 % 10 := by omega
        rw [e1, e2]
        rfl

/-- Zero padding to width 2 of a value below 100 writes exactly its two digits. -/
theorem pad2_digits (n : Nat) (h : n < 100) :
    padZero 2 (decimal n) = [digitChar (n / 10), digitChar (n % 10)] := by
  unfold decimal
  by_cases h1 : n < 10
  · rw [decimalAux_lt (by omega) h1]
    have e1 : n / 10 = 0 := by omega
    have e4 : n % 10 = n := by omega
    rw [e1, e4]
    rfl
  · rw [decimalAux_ge (by omega) (by omega), decimalAux_lt (by omega) (by omega)]
    rfl

theorem fmtD04_length (n : Nat) (h : n < 10000) : (fmtD04 n).length = 4 := by
  rw [fmtD04_digits n h]; rfl

theorem decimal_length_le4 (n : Nat) (h : n < 10000) : (decimal n).length ≤ 4 := by
  have := fmtD04_length n h
  unfold fmtD04 padZero at this
  rw [List.length_append, List.length_replicate] at this
  omega

theorem fmtF094_length (m : Nat) (h : m < 100000000) : (fmtF094 m).length = 9 := by
  have h1 := decimal_length_le4 (m / 10000) (by omega)
  have h2 : (padZero 4 (decimal (m % 10000))).length = 4 := fmtD04_length (m % 10000) (by omega)
  unfold fmtF094
  unfold padZero at h2 ⊢
  simp only [List.length_append, List.length_replicate, List.length_cons] at h2 ⊢
  omega

theorem formatStamp_length (t : GoTime) (h : t.valid) : (formatStamp t).length = 19 := by
  obtain ⟨hy, _, hm, _, hd, hh, hmi, hs⟩ := h
  unfold formatStamp
  have e := fmtD04_digits t.year (by omega)
  unfold fmtD04 at e
  rw [e, pad2_digits _ (by omega), pad2_digits _ (by omega), pad2_digits _ (by omega),
    pad2_digits _ (by omega), pad2_digits _ (by omega)]
  rfl

theorem digitVal_digitChar (d : Nat) (h : d < 10) : digitVal (digitChar d) = some d := by
  interval_cases d <;> rfl

theorem digitChar_ne_minus (d : Nat) (h : d < 10) : digitChar d ≠ '-' := by
  interval_cases d <;> decide

theorem digitChar_ne_plus (d : Nat) (h : d < 10) : digitChar d ≠ '+' := by
  interval_cases d <;> decide

/-- Parsing what `%04d` wrote gives the value back. -/
theorem atoi_fmtD04 (n : Nat) (h : n < 10000) : atoi (fmtD04 n) = (n : Int) := by
  rw [fmtD04_digits n h]
  have a : n / 1000 < 10 := by omega
  have b : n / 100 % 10 < 10 := by omega
  have c : n / 10 % 10 < 10 := by omega
  have d : n % 10 < 10 := by omega
  unfold atoi
  simp only [if_neg (digitChar_ne_minus _ a), if_neg (digitChar_ne_plus _ a), atoiDigits,
    digitVal_digitChar _ a, digitVal_digitChar _ b, digitVal_digitChar _ c,
    digitVal_digitChar _ d]
  congr 1
  omega

theorem drop_after_field (f rest : GoString) (c : Char) (k : Nat) (hk : f.length = k) :
    (f ++ c :: rest).drop (k + 1) = rest := by
  have e : f ++ c :: rest = (f ++ [c]) ++ rest := by simp
  rw [e]
  exact List.drop_left' (by simp [hk])

theorem take_field (f rest : GoString) (k : Nat) (hk : f.length = k) :
    (f ++ rest).take k = f := List.take_left' hk

/-- C6. The Log Record written by the append job and the fixed offsets read by the
rotation job agree. For every calendar timestamp (four-digit year), every FracTime below
10000, heat setpoint, cool setpoint, outdoor and current temperature up to 255 and blower
RPM up to 9999: the record line has the FracTime text at bytes [20,29), the outdoor
temperature at [40,44), the current temperature at [45,49) and the blower RPM at [50,54),
every integer field is exactly its four decimal digits, the line is a data line, and
parsing those ranges as the rotation job does returns the outdoor temperature, current
temperature and blower RPM that were written. -/
theorem record_offsets_agree (dt : GoTime) (frc : Nat) (d : Derived)
    (hdt : dt.valid) (hfrc : frc < 100000000)
    (hheat : d.heatSet ≤ 255) (hcool : d.coolSet ≤ 255) (hout : d.outdoorTemp ≤ 255)
    (hcur : d.currentTemp ≤ 255) (hrpm : d.blowerRPM ≤ 9999) :
    logRecord dt frc d = recordText dt frc d ++ ['\n'] ∧
    isData (recordText dt frc d) = true ∧
    slice (recordText dt frc d) 20 29 = some (fmtF094 frc) ∧
    slice (recordText dt frc d) 30 34 = some (fmtD04 d.heatSet) ∧
    slice (recordText dt frc d) 35 39 = some (fmtD04 d.coolSet) ∧
    slice (recordText dt frc d) 40 44 = some (fmtD04 d.outdoorTemp) ∧
    slice (recordText dt frc d) 45 49 = some (fmtD04 d.currentTemp) ∧
    slice (recordText dt frc d) 50 54 = some (fmtD04 d.blowerRPM) ∧
    (∀ v ∈ [d.heatSet, d.coolSet, d.outdoorTemp, d.currentTemp, d.blowerRPM],
      fmtD04 v = [digitChar (v / 1000), digitChar (v / 100 % 10), digitChar (v / 10 % 10),
        digitChar (v % 10)]) ∧
    (fmtF094 frc).length = 9 ∧
    fracField (recordText dt frc d) = fmtF094 frc ∧
    outField (recordText dt frc d) = (d.outdoorTemp : Int) ∧
    inField (recordText dt frc d) = (d.currentTemp : Int) ∧
    rpmField (recordText dt frc d) = (d.blowerRPM : Int) := by
  have ls := formatStamp_length dt hdt
  have lf := fmtF094_length frc hfrc
  have l1 := fmtD04_length d.heatSet (by omega)
  have l2 := fmtD04_length d.coolSet (by omega)
  have l3 := fmtD04_length d.outdoorTemp (by omega)
  have l4 := fmtD04_length d.currentTemp (by omega)
  have l5 := fmtD04_length d.blowerRPM (by omega)
  have d20 : (recordText dt frc d).drop 20 = fmtF094 frc ++ ',' :: (fmtD04 d.heatSet ++ ',' ::
      (fmtD04 d.coolSet ++ ',' :: (fmtD04 d.outdoorTemp ++ ',' ::
        (fmtD04 d.currentTemp ++ ',' :: (fmtD04 d.blowerRPM ++ ',' :: d.hvacMode))))) :=
    drop_after_field _ _ _ 19 ls
  have d30 : (recordText dt frc d).drop 30 = fmtD04 d.heatSet ++ ',' ::
      (fmtD04 d.coolSet ++ ',' :: (fmtD04 d.outdoorTemp ++ ',' ::
        (fmtD04 d.currentTemp ++ ',' :: (fmtD04 d.blowerRPM ++ ',' :: d.hvacMode)))) := by
    have e : (recordText dt frc d).drop 30 = ((recordText dt frc d).drop 20).drop 10 := by
      rw [List.drop_drop]
    rw [e, d20]
    exact drop_after_field _ _ _ 9 lf
  have d35 : (recordText dt frc d).drop 35 = fmtD04 d.coolSet ++ ',' ::
      (fmtD04 d.outdoorTemp ++ ',' ::
        (fmtD04 d.currentTemp ++ ',' :: (fmtD04 d.blowerRPM ++ ',' :: d.hvacMode))) := by
    have e : (recordText dt frc d).drop 35 = ((recordText dt frc d).drop 30).drop 5 := by
      rw [List.drop_drop]
    rw [e, d30]
    exact drop_after_field _ _ _ 4 l1
  have d40 : (recordText dt frc d).drop 40 = fmtD04 d.outdoorTemp ++ ',' ::
        (fmtD04 d.currentTemp ++ ',' :: (fmtD04 d.blowerRPM ++ ',' :: d.hvacMode)) := by
    have e : (recordText dt frc d).drop 40 = ((recordText dt frc d).drop 35).drop 5 := by
      rw [List.drop_drop]
    rw [e, d35]
    exact drop_after_field _ _ _ 4 l2
  have d45 : (recordText dt frc d).drop 45 =
      fmtD04 d.currentTemp ++ ',' :: (fmtD04 d.blowerRPM ++ ',' :: d.hvacMode) := by
    have e : (recordText dt frc d).drop 45 = ((recordText dt frc d).drop 40).drop 5 := by
      rw [List.drop_drop]
    rw [e, d40]
    exact drop_after_field _ _ _ 4 l3
  have d50 : (recordText dt frc d).drop 50 = fmtD04 d.blowerRPM ++ ',' :: d.hvacMode := by
    have e : (recordText dt frc d).drop 50 = ((recordText dt frc d).drop 45).drop 5 := by
      rw [List.drop_drop]
    rw [e, d45]
    exact drop_after_field _ _ _ 4 l4
  have hlen : 54 ≤ (recordText dt frc d).length := by
    simp only [recordText, List.length_append, List.length_cons, ls, lf, l1, l2, l3, l4, l5]
    omega
  have t20 : ((recordText dt frc d).drop 20).take 9 = fmtF094 frc := by
    rw [d20]; exact take_field _ _ 9 lf
  have t30 : ((recordText dt frc d).drop 30).take 4 = fmtD04 d.heatSet := by
    rw [d30]; exact take_field _ _ 4 l1
  have t35 : ((recordText dt frc d).drop 35).take 4 = fmtD04 d.coolSet := by
    rw [d35]; exact take_field _ _ 4 l2
  have t40 : ((recordText dt frc d).drop 40).take 4 = fmtD04 d.outdoorTemp := by
    rw [d40]; exact take_field _ _ 4 l3
  have t45 : ((recordText dt frc d).drop 45).take 4 = fmtD04 d.currentTemp := by
    rw [d45]; exact take_field _ _ 4 l4
  have t50 : ((recordText dt frc d).drop 50).take 4 = fmtD04 d.blowerRPM := by
    rw [d50]; exact take_field _ _ 4 l5
  have hdata : isData (recordText dt frc d) = true := by
    have hy : dt.year / 1000 < 10 := by have := hdt.1; omega
    have e := fmtD04_digits dt.year (by have := hdt.1; omega)
    unfold fmtD04 at e
    unfold recordText formatStamp isData
    rw [e]
    simp only [List.cons_append, List.head?_cons]
    have hne : digitChar (dt.year / 1000) ≠ 'D' := by
      interval_cases (dt.year / 1000) <;> decide
    simp [hne]
  refine ⟨rfl, hdata, ?_, ?_, ?_, ?_, ?_, ?_, ?_, lf, t20, ?_, ?_, ?_⟩
  · rw [slice_of_le (by omega) (by omega), t20]
  · rw [slice_of_le (by omega) (by omega), t30]
  · rw [slice_of_le (by omega) (by omega), t35]
  · rw [slice_of_le (by omega) (by omega), t40]
  · rw [slice_of_le (by omega) (by omega), t45]
  · rw [slice_of_le (by omega) (by omega), t50]
  · intro v hv
    simp only [List.mem_cons, List.mem_singleton, List.not_mem_nil, or_false] at hv
    apply fmtD04_digits
    rcases hv with rfl | rfl | rfl | rfl | rfl <;> omega
  · unfold outField; rw [t40]; exact atoi_fmtD04 _ (by omega)
  · unfold inField; rw [t45]; exact atoi_fmtD04 _ (by omega)
  · unfold rpmField; rw [t50]; exact atoi_fmtD04 _ (by omega)

/-- Witness for C6: the record of 2024-03-01 13:04:00 with FracTime 1.5444, setpoints
68 and 74, 41 outdoors, 70 indoors and 812 RPM, and what the rotation job parses
from it. -/
theorem record_offsets_agree_witness :
    sampleTime.valid ∧
    recordText sampleTime 15444 sampleDerived =
      "2024-03-01T13:04:00,0001.5444,0068,0074,0041,0070,0812,heat".toList ∧
    outField (recordText sampleTime 15444 sampleDerived) = 41 ∧
    inField (recordText sampleTime 15444 sampleDerived) = 70 ∧
    rpmField (recordText sampleTime 15444 sampleDerived) = 812 := by
  have h := record_offsets_agree sampleTime 15444 sampleDerived (by decide) (by decide)
    (by decide) (by decide) (by decide) (by decide) (by decide)
  exact ⟨by decide, by decide, h.2.2.2.2.2.2.2.2.2.2.2.1, h.2.2.2.2.2.2.2.2.2.2.2.2.1,
    h.2.2.2.2.2.2.2.2.2.2.2.2.2⟩

/-! ## Properties of process start, the append job and the rotation job -/

theorem set_file_same (fs : FileSys) (path : GoString) (c : Option (List GoString)) :
    (fs.set path c).file path = c := by
  simp [FileSys.set]

theorem set_file_other (fs : FileSys) {path q : GoString} (c : Option (List GoString))
    (h : q ≠ path) : (fs.set path c).file q = fs.file q := by
  simp [FileSys.set, h]

theorem openAppend_append (fs : FileSys) (path s : GoString) :
    ((fs.openAppend path).append path s).file path = some ((fs.file path).getD [] ++ [s]) := by
  unfold FileSys.openAppend
  cases h : fs.file path with
  | none =>
    simp only [FileSys.append, set_file_same, Option.getD_none, List.nil_append]
  | some c =>
    simp only [FileSys.append, h, set_file_same, Option.getD_some]

theorem append_file (fs : FileSys) (path s : GoString) (c : List GoString)
    (h : fs.file path = some c) : (fs.append path s).file path = some (c ++ [s]) := by
  simp only [FileSys.append, h, set_file_same]

theorem append_file_other (fs : FileSys) {path q : GoString} (s : GoString) (h : q ≠ path) :
    (fs.append path s).file q = fs.file q := by
  unfold FileSys.append
  cases fs.file path with
  | none => rfl
  | some c => exact set_file_other _ _ h

theorem openAppend_file_other (fs : FileSys) {path q : GoString} (h : q ≠ path) :
    (fs.openAppend path).file q = fs.file q := by
  unfold FileSys.openAppend
  cases fs.file path with
  | none => exact set_file_other _ _ h
  | some c => rfl

theorem dailyFileName_ne_activePath (cfg : Config) (dt : GoTime) :
    dailyFileName cfg dt ≠ activePath cfg := by
  intro h
  have hl := congrArg List.length h
  simp only [dailyFileName, activePath, List.length_append, List.length_cons] at hl
  omega

theorem rename_file_old (fs : FileSys) (old new : GoString) :
    (fs.rename old new).file old = none := by
  simp [FileSys.rename, FileSys.set]

theorem rename_file_new (fs : FileSys) {old new : GoString} (h : new ≠ old) :
    (fs.rename old new).file new = fs.file old := by
  simp [FileSys.rename, FileSys.set, h]

/-- A record line is not the header line and does not start with `D`. -/
theorem logRecord_ne_header (dt : GoTime) (frc : Nat) (d : Derived) (h : dt.valid) :
    logRecord dt frc d ≠ HeaderString := by
  intro e
  have hy : dt.year / 1000 < 10 := by have := h.1; omega
  have e4 := fmtD04_digits dt.year (by have := h.1; omega)
  unfold fmtD04 at e4
  have hh := congrArg List.head? e
  unfold logRecord recordText formatStamp at hh
  rw [e4] at hh
  simp only [List.cons_append, List.head?_cons] at hh
  have hne : digitChar (dt.year / 1000) ≠ 'D' := by
    interval_cases (dt.year / 1000) <;> decide
  exact hne (Option.some.inj hh)

theorem headerOnce_append (c : List GoString) (s : GoString) (hs : s ≠ HeaderString)
    (h : HeaderOnce c) : HeaderOnce (c ++ [s]) := by
  obtain ⟨h1, h2⟩ := h
  constructor
  · cases c with
    | nil => simp at h1
    | cons x xs => simpa using h1
  · rw [List.count_append, h2]
    have : List.count HeaderString [s] = 0 := by
      rw [List.count_eq_zero]
      simp only [List.mem_singleton]
      exact fun e => hs e.symm
    omega

/-- Where the files stand after the first part of cron job 2, case by case. -/
theorem rotateFiles_cases (cfg : Config) (f : Faults) (p : Proc) :
    ((rotateFiles cfg f p).2 = some (JobEnd.exited 0) ∧ (rotateFiles cfg f p).1.fs = p.fs) ∨
    ((rotateFiles cfg f p).2 = some (JobEnd.exited 0) ∧
      (rotateFiles cfg f p).1.fs.file (activePath cfg) = none) ∨
    (((rotateFiles cfg f p).2 = some (JobEnd.exited 0) ∨ (rotateFiles cfg f p).2 = none) ∧
      (rotateFiles cfg f p).1.fs.file (activePath cfg) = some [HeaderString] ∧
      (rotateFiles cfg f p).1.fs.file (dailyFileName cfg p.dt) = p.fs.file (activePath cfg) ∧
      (rotateFiles cfg f p).1.dt = p.dt) := by
  unfold rotateFiles
  by_cases h1 : (f.closeFails || !p.handleOpen) = true
  · left; rw [if_pos h1]; exact ⟨rfl, rfl⟩
  · rw [if_neg h1]
    by_cases h2 : (f.renameFails || (p.fs.file (activePath cfg)).isNone) = true
    · left; rw [if_pos h2]; exact ⟨rfl, rfl⟩
    · rw [if_neg h2]
      simp only
      by_cases h3 : f.reopenFails = true
      · right; left
        rw [if_pos h3]
        exact ⟨rfl, rename_file_old _ _ _⟩
      · right; right
        rw [if_neg h3]
        have hact : (((p.fs.rename (activePath cfg) (dailyFileName cfg p.dt)).openAppend
            (activePath cfg)).append (activePath cfg) HeaderString).file (activePath cfg)
            = some [HeaderString] := by
          rw [openAppend_append, rename_file_old]
          rfl
        have hday : (((p.fs.rename (activePath cfg) (dailyFileName cfg p.dt)).openAppend
            (activePath cfg)).append (activePath cfg) HeaderString).file
              (dailyFileName cfg p.dt) = p.fs.file (activePath cfg) := by
          rw [append_file_other _ _ (dailyFileName_ne_activePath cfg p.dt),
            openAppend_file_other _ (dailyFileName_ne_activePath cfg p.dt),
            rename_file_new _ (dailyFileName_ne_activePath cfg p.dt)]
        by_cases h4 : f.openDailyFails = true
        · rw [if_pos h4]
          exact ⟨Or.inl rfl, hact, hday, rfl⟩
        · rw [if_neg h4]
          exact ⟨Or.inr rfl, hact, hday, rfl⟩

theorem chartArchive_fs (cfg : Config) (f : Faults) (p : Proc) :
    (chartArchive cfg f p).1.fs = p.fs ∧ (chartArchive cfg f p).1.dt = p.dt := by
  unfold chartArchive
  simp only
  cases scanLines (fun s => s) p.scan.restart
      (List.map scannerLine ((p.fs.file (dailyFileName cfg p.dt)).getD [])) with
  | none => exact ⟨rfl, rfl⟩
  | some st =>
    simp only
    cases chartInput st with
    | none => exact ⟨rfl, rfl⟩
    | some ch =>
      simp only
      cases f.chartFails <;> exact ⟨rfl, rfl⟩

theorem cronJob2_eq (cfg : Config) (f : Faults) (p : Proc) :
    (∃ e, (rotateFiles cfg f p).2 = some e ∧ cronJob2 cfg f p = ((rotateFiles cfg f p).1, e)) ∨
    ((rotateFiles cfg f p).2 = none ∧
      cronJob2 cfg f p = chartArchive cfg f (rotateFiles cfg f p).1) := by
  unfold cronJob2
  rcases h : rotateFiles cfg f p with ⟨p1, e⟩
  cases e with
  | none => right; exact ⟨rfl, rfl⟩
  | some e => left; exact ⟨e, rfl, rfl⟩

theorem rename_file_other (fs : FileSys) {old new q : GoString} (h1 : q ≠ old) (h2 : q ≠ new) :
    (fs.rename old new).file q = fs.file q := by
  simp [FileSys.rename, FileSys.set, h1, h2]

/-- The rotation job when the close fails (also when there is no open handle to close):
the message of the close branch, exit, nothing else touched. -/
theorem cronJob2_close_fails (cfg : Config) (f : Faults) (p : Proc)
    (h1 : (f.closeFails || !p.handleOpen) = true) :
    cronJob2 cfg f p =
      ({ p with errors := p.errors ++
          ["infinitive.go cron 2 - error closing:".toList ++ activePath cfg] },
        JobEnd.exited 0) := by
  unfold cronJob2 rotateFiles
  rw [if_pos h1]

/-- The rotation job when the close succeeds and the rename fails (also when there is no
file to rename): the handle is closed, the files are as they were. -/
theorem cronJob2_rename_fails (cfg : Config) (f : Faults) (p : Proc)
    (h1 : (f.closeFails || !p.handleOpen) = false)
    (h2 : (f.renameFails || (p.fs.file (activePath cfg)).isNone) = true) :
    cronJob2 cfg f p =
      ({ p with handleOpen := false, errors := p.errors ++
          ["infinitive.go cron 2 - unable to rename old ".toList ++ activePath cfg ++
            " to ".toList ++ dailyFileName cfg p.dt] },
        JobEnd.exited 0) := by
  unfold cronJob2 rotateFiles
  rw [h1, if_neg Bool.false_ne_true, if_pos h2]

/-- The rotation job when close and rename succeed and the reopen fails: the rename
stays done. -/
theorem cronJob2_reopen_fails (cfg : Config) (f : Faults) (p : Proc)
    (h1 : (f.closeFails || !p.handleOpen) = false)
    (h2 : (f.renameFails || (p.fs.file (activePath cfg)).isNone) = false)
    (h3 : f.reopenFails = true) :
    cronJob2 cfg f p =
      ({ p with fs := p.fs.rename (activePath cfg) (dailyFileName cfg p.dt),
                handleOpen := false, errors := p.errors ++
          ["infinitive.go cron Job 2, error on reopen of:".toList ++ activePath cfg] },
        JobEnd.exited 0) := by
  unfold cronJob2 rotateFiles
  rw [h1, if_neg Bool.false_ne_true, h2, if_neg Bool.false_ne_true]
  simp only
  rw [if_pos h3]

/-- The rotation job when close, rename and reopen succeed and the archive cannot be
opened for reading: the rename stays done and the new active log has its header. -/
theorem cronJob2_openDaily_fails (cfg : Config) (f : Faults) (p : Proc)
    (h1 : (f.closeFails || !p.handleOpen) = false)
    (h2 : (f.renameFails || (p.fs.file (activePath cfg)).isNone) = false)
    (h3 : f.reopenFails = false) (h4 : f.openDailyFails = true) :
    cronJob2 cfg f p =
      ({ p with fs := ((p.fs.rename (activePath cfg) (dailyFileName cfg p.dt)).openAppend
                  (activePath cfg)).append (activePath cfg) HeaderString,
                handleOpen := true, errors := p.errors ++
          ["infinitive.go cron 2 - unable to open daily file for read: ".toList ++
            dailyFileName cfg p.dt] },
        JobEnd.exited 0) := by
  unfold cronJob2 rotateFiles
  rw [h1, if_neg Bool.false_ne_true, h2, if_neg Bool.false_ne_true]
  simp only
  rw [h3, if_neg Bool.false_ne_true, if_pos h4]

/-- What the first part of the rotation job never touches: the charts, the buffers of
the reader, and every file other than the active log and the archive. -/
theorem rotateFiles_frame (cfg : Config) (f : Faults) (p : Proc) :
    (rotateFiles cfg f p).1.charts = p.charts ∧ (rotateFiles cfg f p).1.scan = p.scan ∧
    (∀ q, q ≠ activePath cfg → q ≠ dailyFileName cfg p.dt →
      (rotateFiles cfg f p).1.fs.file q = p.fs.file q) := by
  have hq : ∀ q, q ≠ activePath cfg → q ≠ dailyFileName cfg p.dt →
      (((p.fs.rename (activePath cfg) (dailyFileName cfg p.dt)).openAppend
        (activePath cfg)).append (activePath cfg) HeaderString).file q = p.fs.file q := by
    intro q ha hd
    rw [append_file_other _ _ ha, openAppend_file_other _ ha, rename_file_other _ ha hd]
  unfold rotateFiles
  by_cases h1 : (f.closeFails || !p.handleOpen) = true
  · rw [if_pos h1]; exact ⟨rfl, rfl, fun _ _ _ => rfl⟩
  · rw [if_neg h1]
    by_cases h2 : (f.renameFails || (p.fs.file (activePath cfg)).isNone) = true
    · rw [if_pos h2]; exact ⟨rfl, rfl, fun _ _ _ => rfl⟩
    · rw [if_neg h2]
      simp only
      by_cases h3 : f.reopenFails = true
      · rw [if_pos h3]
        exact ⟨rfl, rfl, fun q ha hd => rename_file_other _ ha hd⟩
      · rw [if_neg h3]
        by_cases h4 : f.openDailyFails = true
        · rw [if_pos h4]; exact ⟨rfl, rfl, hq⟩
        · rw [if_neg h4]; exact ⟨rfl, rfl, hq⟩

/-- The first part of the rotation job when none of its four operations fails. -/
theorem rotateFiles_ok (cfg : Config) (f : Faults) (p : Proc)
    (h1 : (f.closeFails || !p.handleOpen) = false)
    (h2 : (f.renameFails || (p.fs.file (activePath cfg)).isNone) = false)
    (h3 : f.reopenFails = false) (h4 : f.openDailyFails = false) :
    rotateFiles cfg f p =
      ({ p with fs := ((p.fs.rename (activePath cfg) (dailyFileName cfg p.dt)).openAppend
                  (activePath cfg)).append (activePath cfg) HeaderString,
                handleOpen := true }, none) := by
  unfold rotateFiles
  rw [h1, if_neg Bool.false_ne_true, h2, if_neg Bool.false_ne_true]
  simp only
  rw [h3, if_neg Bool.false_ne_true, h4, if_neg Bool.false_ne_true]

/-- The files after a rotation whose close, rename and reopen succeed, whatever comes
after: a new active log with the header only, the old log under the archive name. -/
theorem cronJob2_past_reopen (cfg : Config) (f : Faults) (p : Proc) (c : List GoString)
    (h1 : (f.closeFails || !p.handleOpen) = false)
    (hact : p.fs.file (activePath cfg) = some c) (hren : f.renameFails = false)
    (h3 : f.reopenFails = false) :
    (cronJob2 cfg f p).1.fs.file (activePath cfg) = some [HeaderString] ∧
    (cronJob2 cfg f p).1.fs.file (dailyFileName cfg p.dt) = some c := by
  have h2 : (f.renameFails || (p.fs.file (activePath cfg)).isNone) = false := by
    rw [hren, hact]; rfl
  have hA : (((p.fs.rename (activePath cfg) (dailyFileName cfg p.dt)).openAppend
      (activePath cfg)).append (activePath cfg) HeaderString).file (activePath cfg)
      = some [HeaderString] := by
    rw [openAppend_append, rename_file_old]
    rfl
  have hD : (((p.fs.rename (activePath cfg) (dailyFileName cfg p.dt)).openAppend
      (activePath cfg)).append (activePath cfg) HeaderString).file
        (dailyFileName cfg p.dt) = some c := by
    rw [append_file_other _ _ (dailyFileName_ne_activePath cfg p.dt),
      openAppend_file_other _ (dailyFileName_ne_activePath cfg p.dt),
      rename_file_new _ (dailyFileName_ne_activePath cfg p.dt), hact]
  cases h4 : f.openDailyFails with
  | true =>
    rw [cronJob2_openDaily_fails cfg f p h1 h2 h3 h4]
    exact ⟨hA, hD⟩
  | false =>
    have hr := rotateFiles_ok cfg f p h1 h2 h3 h4
    have hc : cronJob2 cfg f p = chartArchive cfg f (rotateFiles cfg f p).1 := by
      rcases cronJob2_eq cfg f p with ⟨e, he, _⟩ | ⟨_, h⟩
      · rw [hr] at he; exact absurd he (by simp)
      · exact h
    rw [hc, (chartArchive_fs cfg f _).1, hr]
    exact ⟨hA, hD⟩

/-- C7, as stated, fails: a process started on an active log that already holds the
header and a record of an earlier run appends a second header line, so it is not true
for every state of the file that the header is there exactly once after startup. -/
theorem header_duplicated_on_restart :
    (startup defaultConfig day2First false leftoverFS).fs.file (activePath defaultConfig) =
      some [HeaderString, logRecord day1Last 19972 sampleDerived, HeaderString] ∧
    ¬ (∀ c, (startup defaultConfig day2First false leftoverFS).fs.file
          (activePath defaultConfig) = some c → HeaderOnce c) := by
  have h : (startup defaultConfig day2First false leftoverFS).fs.file
      (activePath defaultConfig) =
        some [HeaderString, logRecord day1Last 19972 sampleDerived, HeaderString] := by
    unfold startup
    simp only [Bool.false_eq_true, if_false]
    rw [openAppend_append]
    unfold leftoverFS
    rw [set_file_same]
    rfl
  refine ⟨h, ?_⟩
  intro hall
  have := hall _ h
  exact absurd this (by decide)

/-- C7, amended. Startup writes one header line at the end of whatever the active log
holds, when its open succeeds: a file that is absent or empty then holds the header
exactly once, as its first line; a file that already holds lines keeps them and the
header follows them. When the open fails, startup only reports the error: the files are
as they were, there is no handle, and the append job then writes nothing. From a log with
the header exactly once, every append keeps that, and after every rotation the active
log, when there is one, has the header exactly once. A rotation that returns leaves
exactly the header line in the active log; a rotation whose close, rename and reopen
succeed leaves exactly the header line in the active log and the old log under the
archive name; a rotation whose reopen fails after a successful close and rename ends the
process with the old log under the archive name and no active log. -/
theorem active_log_header (cfg : Config) :
    (∀ now fs, (fs.file (activePath cfg) = none ∨ fs.file (activePath cfg) = some []) →
      (startup cfg now false fs).fs.file (activePath cfg) = some [HeaderString] ∧
      HeaderOnce [HeaderString]) ∧
    (∀ now fs c, fs.file (activePath cfg) = some c →
      (startup cfg now false fs).fs.file (activePath cfg) = some (c ++ [HeaderString])) ∧
    (∀ now fs, (startup cfg now true fs).fs = fs ∧
      (startup cfg now true fs).handleOpen = false ∧
      (startup cfg now true fs).errors = ["Infinitive Data File Open Failure.".toList] ∧
      ∀ now2 frc d, (cronJob1 cfg now2 frc d (startup cfg now true fs)).fs = fs) ∧
    (∀ (p : Proc) (now : GoTime) (frc : Nat) (d : Derived) (c : List GoString), now.valid →
      p.fs.file (activePath cfg) = some c → HeaderOnce c →
      ∃ c', (cronJob1 cfg now frc d p).fs.file (activePath cfg) = some c' ∧ HeaderOnce c') ∧
    (∀ (f : Faults) (p : Proc) (c : List GoString),
      (∀ c0, p.fs.file (activePath cfg) = some c0 → HeaderOnce c0) →
      (cronJob2 cfg f p).1.fs.file (activePath cfg) = some c → HeaderOnce c) ∧
    (∀ (f : Faults) (p : Proc), (cronJob2 cfg f p).2 = JobEnd.returned →
      (cronJob2 cfg f p).1.fs.file (activePath cfg) = some [HeaderString]) ∧
    (∀ (f : Faults) (p : Proc) (c : List GoString), p.handleOpen = true →
      p.fs.file (activePath cfg) = some c → f.closeFails = false → f.renameFails = false →
      f.reopenFails = false →
      (cronJob2 cfg f p).1.fs.file (activePath cfg) = some [HeaderString] ∧
      (cronJob2 cfg f p).1.fs.file (dailyFileName cfg p.dt) = some c) ∧
    (∀ (f : Faults) (p : Proc) (c : List GoString), p.handleOpen = true →
      p.fs.file (activePath cfg) = some c → f.closeFails = false → f.renameFails = false →
      f.reopenFails = true →
      (cronJob2 cfg f p).2 = JobEnd.exited 0 ∧
      (cronJob2 cfg f p).1.fs.file (activePath cfg) = none ∧
      (cronJob2 cfg f p).1.fs.file (dailyFileName cfg p.dt) = some c) := by
  refine ⟨?_, ?_, ?_, ?_, ?_, ?_, ?_, ?_⟩
  · intro now fs h
    refine ⟨?_, by decide⟩
    unfold startup
    simp only [Bool.false_eq_true, if_false]
    rw [openAppend_append]
    rcases h with h | h <;> rw [h] <;> rfl
  · intro now fs c h
    unfold startup
    simp only [Bool.false_eq_true, if_false]
    rw [openAppend_append, h]
    rfl
  · intro now fs
    exact ⟨rfl, rfl, rfl, fun _ _ _ => rfl⟩
  · intro p now frc d c hv hc ho
    unfold cronJob1
    by_cases hh : p.handleOpen = true
    · rw [if_pos hh]
      exact ⟨_, append_file _ _ _ _ hc, headerOnce_append _ _ (logRecord_ne_header _ _ _ hv) ho⟩
    · rw [if_neg hh]
      exact ⟨c, hc, ho⟩
  · intro f p c hp hc
    have hfs : (cronJob2 cfg f p).1.fs = (rotateFiles cfg f p).1.fs := by
      rcases cronJob2_eq cfg f p with ⟨e, _, h⟩ | ⟨_, h⟩
      · rw [h]
      · rw [h]; exact (chartArchive_fs cfg f _).1
    rw [hfs] at hc
    rcases rotateFiles_cases cfg f p with ⟨_, h⟩ | ⟨_, h⟩ | ⟨_, h, _⟩
    · rw [h] at hc; exact hp c hc
    · rw [h] at hc; exact absurd hc (by simp)
    · rw [h] at hc
      rw [← Option.some.inj hc]
      decide
  · intro f p hret
    rcases cronJob2_eq cfg f p with ⟨e, he, h⟩ | ⟨hn, h⟩
    · rcases rotateFiles_cases cfg f p with ⟨h1, _⟩ | ⟨h1, _⟩ | ⟨h1, hact, _⟩
      · rw [h] at hret
        rw [h1] at he
        simp only at hret
        rw [← Option.some.inj he] at hret
        exact absurd hret (by decide)
      · rw [h] at hret
        rw [h1] at he
        simp only at hret
        rw [← Option.some.inj he] at hret
        exact absurd hret (by decide)
      · rcases h1 with h1 | h1
        · rw [h] at hret
          rw [h1] at he
          simp only at hret
          rw [← Option.some.inj he] at hret
          exact absurd hret (by decide)
        · rw [h1] at he; exact absurd he (by simp)
    · rw [h, (chartArchive_fs cfg f _).1]
      rcases rotateFiles_cases cfg f p with ⟨h1, _⟩ | ⟨h1, _⟩ | ⟨_, hact, _⟩
      · rw [hn] at h1; exact absurd h1 (by simp)
      · rw [hn] at h1; exact absurd h1 (by simp)
      · exact hact
  · intro f p c hopen hact hcl hren hreo
    exact cronJob2_past_reopen cfg f p c (by rw [hcl, hopen]; rfl) hact hren hreo
  · intro f p c hopen hact hcl hren hreo
    rw [cronJob2_reopen_fails cfg f p (by rw [hcl, hopen]; rfl) (by rw [hren, hact]; rfl) hreo]
    refine ⟨rfl, rename_file_old _ _ _, ?_⟩
    exact (rename_file_new _ (dailyFileName_ne_activePath cfg p.dt)).trans hact

/-- Witness for C7 (amended): a first start with no file gives exactly the header; an
append of a valid instant keeps the header unique; the rotation of that day returns and
leaves exactly the header in the active log; the same rotation with a failing reopen ends
the process with the day under the archive name and no active log. -/
theorem active_log_header_witness :
    emptyFS.file (activePath defaultConfig) = none ∧ day1Start.valid ∧
    (startup defaultConfig day1Start false emptyFS).fs.file (activePath defaultConfig) =
      some [HeaderString] ∧
    (∃ c', (cronJob1 defaultConfig day1Start 13750 sampleDerived
        (startup defaultConfig day1Start false emptyFS)).fs.file (activePath defaultConfig)
          = some c' ∧ HeaderOnce c') ∧
    (cronJob2 defaultConfig noFaults day1Proc).2 = JobEnd.returned ∧
    afterDay1.fs.file (activePath defaultConfig) = some [HeaderString] ∧
    day1Proc.handleOpen = true ∧
    day1Proc.fs.file (activePath defaultConfig) =
      some [HeaderString, logRecord day1Start 13750 sampleDerived,
        logRecord day1Last 19972 sampleDerived] ∧
    reopenFault.reopenFails = true ∧
    (cronJob2 defaultConfig reopenFault day1Proc).2 = JobEnd.exited 0 ∧
    (cronJob2 defaultConfig reopenFault day1Proc).1.fs.file (activePath defaultConfig) =
      none ∧
    (cronJob2 defaultConfig reopenFault day1Proc).1.fs.file
      (dailyFileName defaultConfig day1Proc.dt) =
        some [HeaderString, logRecord day1Start 13750 sampleDerived,
          logRecord day1Last 19972 sampleDerived] := by
  have h := active_log_header defaultConfig
  have h0 := (h.1 day1Start emptyFS (Or.inl rfl)).1
  have h7 := h.2.2.2.2.2.2.2 reopenFault day1Proc
    [HeaderString, logRecord day1Start 13750 sampleDerived,
      logRecord day1Last 19972 sampleDerived] (by decide) (by decide) rfl rfl rfl
  exact ⟨rfl, by decide, h0,
    h.2.2.2.1 _ day1Start 13750 sampleDerived [HeaderString] (by decide) h0 (by decide),
    by decide, h.2.2.2.2.2.1 noFaults day1Proc (by decide), by decide, by decide, rfl,
    h7.1, h7.2.1, h7.2.2⟩

theorem cronJob2_dt (cfg : Config) (f : Faults) (p : Proc) : (cronJob2 cfg f p).1.dt = p.dt := by
  have hr : (rotateFiles cfg f p).1.dt = p.dt := by
    unfold rotateFiles
    by_cases h1 : (f.closeFails || !p.handleOpen) = true
    · rw [if_pos h1]
    · rw [if_neg h1]
      by_cases h2 : (f.renameFails || (p.fs.file (activePath cfg)).isNone) = true
      · rw [if_pos h2]
      · rw [if_neg h2]
        simp only
        by_cases h3 : f.reopenFails = true
        · rw [if_pos h3]
        · rw [if_neg h3]
          by_cases h4 : f.openDailyFails = true
          · rw [if_pos h4]
          · rw [if_neg h4]
  rcases cronJob2_eq cfg f p with ⟨e, _, h⟩ | ⟨_, h⟩
  · rw [h]; exact hr
  · rw [h, (chartArchive_fs cfg f _).2]; exact hr

/-- C8. The archive and chart names do not carry the date of the day being rotated: the
job formats them from `dt`, the variable set once by `dt := time.Now()` when `main`
starts, which neither job changes. Every rotation of one process therefore renames the
active log to the same path, named after the start date: in a process started on
2024-03-01, the rotation of 2024-03-02 writes `2024-03-01_Infinitive.csv` again, the
records of 2024-03-01 archived the day before are replaced by those of 2024-03-02, and
no `2024-03-02_Infinitive.csv` exists. -/
theorem archive_name_uses_startup_date :
    (∀ (cfg : Config) (now : GoTime) (o : Bool) (fs : FileSys),
      (startup cfg now o fs).dt = now) ∧
    (∀ (cfg : Config) (now : GoTime) (frc : Nat) (d : Derived) (p : Proc),
      (cronJob1 cfg now frc d p).dt = p.dt) ∧
    (∀ (cfg : Config) (f : Faults) (p : Proc), (cronJob2 cfg f p).1.dt = p.dt) ∧
    (∀ (cfg : Config) (f : Faults) (p : Proc) (c : List GoString),
      p.fs.file (activePath cfg) = some c → (cronJob2 cfg f p).2 = JobEnd.returned →
      (cronJob2 cfg f p).1.fs.file (dailyFileName cfg p.dt) = some c) ∧
    dailyFileName defaultConfig day1Start =
      "/var/lib/infinitive/2024-03-01_Infinitive.csv".toList ∧
    chartFileName defaultConfig day1Start =
      "/var/lib/infinitive/2024-03-01_Temperature.html".toList ∧
    afterDay1.fs.file "/var/lib/infinitive/2024-03-01_Infinitive.csv".toList =
      some [HeaderString, logRecord day1Start 13750 sampleDerived,
        logRecord day1Last 19972 sampleDerived] ∧
    afterDay2.dt = day1Start ∧
    afterDay2.fs.file "/var/lib/infinitive/2024-03-01_Infinitive.csv".toList =
      some [HeaderString, logRecord day2First 20028 sampleDerived,
        logRecord day2Last 29972 sampleDerived] ∧
    afterDay2.fs.file "/var/lib/infinitive/2024-03-02_Infinitive.csv".toList = none ∧
    afterDay2.charts.map Prod.fst =
      ["/var/lib/infinitive/2024-03-01_Temperature.html".toList,
       "/var/lib/infinitive/2024-03-01_Temperature.html".toList] := by
  refine ⟨?_, ?_, cronJob2_dt, ?_, by decide, by decide, by decide, by decide, by decide,
    by decide, by decide⟩
  · intro cfg now o fs
    unfold startup
    cases o <;> rfl
  · intro cfg now frc d p
    unfold cronJob1
    cases p.handleOpen <;> rfl
  · intro cfg f p c hc hret
    rcases cronJob2_eq cfg f p with ⟨e, he, h⟩ | ⟨hn, h⟩
    · rcases rotateFiles_cases cfg f p with ⟨h1, _⟩ | ⟨h1, _⟩ | ⟨h1, _, _, _⟩
      · rw [h] at hret; rw [h1] at he; simp only at hret
        rw [← Option.some.inj he] at hret
        exact absurd hret (by decide)
      · rw [h] at hret; rw [h1] at he; simp only at hret
        rw [← Option.some.inj he] at hret
        exact absurd hret (by decide)
      · rcases h1 with h1 | h1
        · rw [h] at hret; rw [h1] at he; simp only at hret
          rw [← Option.some.inj he] at hret
          exact absurd hret (by decide)
        · rw [h1] at he; exact absurd he (by simp)
    · rw [h, (chartArchive_fs cfg f _).1]
      rcases rotateFiles_cases cfg f p with ⟨h1, _⟩ | ⟨h1, _⟩ | ⟨_, _, hday, _⟩
      · rw [hn] at h1; exact absurd h1 (by simp)
      · rw [hn] at h1; exact absurd h1 (by simp)
      · rw [hday, hc]

/-- Witness for C8: the rotation run at the end of 2024-03-02 in the process started on
2024-03-01 returns, and archives the log of that day under the name of 2024-03-01. -/
theorem archive_name_uses_startup_date_witness :
    (cronJob2 defaultConfig noFaults
      (cronJob1 defaultConfig day2Last 29972 sampleDerived
        (cronJob1 defaultConfig day2First 20028 sampleDerived afterDay1))).2 = JobEnd.returned ∧
    afterDay2.fs.file (dailyFileName defaultConfig day1Start) =
      some [HeaderString, logRecord day2First 20028 sampleDerived,
        logRecord day2Last 29972 sampleDerived] := by
  refine ⟨by decide, ?_⟩
  have h := archive_name_uses_startup_date.2.2.2.1 defaultConfig noFaults
    (cronJob1 defaultConfig day2Last 29972 sampleDerived
      (cronJob1 defaultConfig day2First 20028 sampleDerived afterDay1))
    [HeaderString, logRecord day2First 20028 sampleDerived,
      logRecord day2Last 29972 sampleDerived] (by decide) (by decide)
  exact h

/-- C9, as stated, fails: when the rename fails in an invocation of the rotation job the
job does not return to the scheduler, it ends the process with `os.Exit(0)`. -/
theorem rotation_failure_exits_example :
    (cronJob2 defaultConfig renameFault day1Proc).2 = JobEnd.exited 0 ∧
    (cronJob2 defaultConfig renameFault day1Proc).2 ≠ JobEnd.returned := by
  constructor <;> decide

/-- C9, amended. In every invocation of the rotation job in which closing the active
log, renaming it, reopening a new active log or opening the archive for reading fails,
the job reports the error (one message to `log.Error`) and terminates the process with
exit status 0: the invocation ends with `os.Exit(0)`, not with a return. No chart is
rendered, the buffers of the reader are untouched, and every file other than the active
log and the archive is as it was. In a process that holds the open handle of an existing
active log, the exit happens at the first failing step, with the message of that step,
and what was done before it stays done: when the close fails, or the close succeeds and
the rename fails, every file is as it was; when close and rename succeed and the reopen
fails, the old log is under the archive name and there is no active log; when close,
rename and reopen succeed and opening the archive fails, the old log is under the
archive name and the active log holds exactly the header line. -/
theorem rotation_failure_exits_process (cfg : Config) (f : Faults) (p : Proc)
    (hf : f.closeFails = true ∨ f.renameFails = true ∨ f.reopenFails = true ∨
      f.openDailyFails = true) :
    (cronJob2 cfg f p).2 = JobEnd.exited 0 ∧
    (cronJob2 cfg f p).1.errors.length = p.errors.length + 1 ∧
    (cronJob2 cfg f p).1.charts = p.charts ∧
    (cronJob2 cfg f p).1.scan = p.scan ∧
    (∀ q, q ≠ activePath cfg → q ≠ dailyFileName cfg p.dt →
      (cronJob2 cfg f p).1.fs.file q = p.fs.file q) ∧
    (∀ c, p.handleOpen = true → p.fs.file (activePath cfg) = some c →
      (f.closeFails = true →
        (cronJob2 cfg f p).1.errors = p.errors ++
          ["infinitive.go cron 2 - error closing:".toList ++ activePath cfg] ∧
        (cronJob2 cfg f p).1.fs = p.fs) ∧
      (f.closeFails = false → f.renameFails = true →
        (cronJob2 cfg f p).1.errors = p.errors ++
          ["infinitive.go cron 2 - unable to rename old ".toList ++ activePath cfg ++
            " to ".toList ++ dailyFileName cfg p.dt] ∧
        (cronJob2 cfg f p).1.fs = p.fs) ∧
      (f.closeFails = false → f.renameFails = false → f.reopenFails = true →
        (cronJob2 cfg f p).1.errors = p.errors ++
          ["infinitive.go cron Job 2, error on reopen of:".toList ++ activePath cfg] ∧
        (cronJob2 cfg f p).1.fs.file (activePath cfg) = none ∧
        (cronJob2 cfg f p).1.fs.file (dailyFileName cfg p.dt) = some c) ∧
      (f.closeFails = false → f.renameFails = false → f.reopenFails = false →
        f.openDailyFails = true →
        (cronJob2 cfg f p).1.errors = p.errors ++
          ["infinitive.go cron 2 - unable to open daily file for read: ".toList ++
            dailyFileName cfg p.dt] ∧
        (cronJob2 cfg f p).1.fs.file (activePath cfg) = some [HeaderString] ∧
        (cronJob2 cfg f p).1.fs.file (dailyFileName cfg p.dt) = some c)) := by
  have hr : (rotateFiles cfg f p).2 = some (JobEnd.exited 0) ∧
      (rotateFiles cfg f p).1.errors.length = p.errors.length + 1 := by
    unfold rotateFiles
    by_cases h1 : (f.closeFails || !p.handleOpen) = true
    · rw [if_pos h1]; simp
    · rw [if_neg h1]
      by_cases h2 : (f.renameFails || (p.fs.file (activePath cfg)).isNone) = true
      · rw [if_pos h2]; simp
      · rw [if_neg h2]
        simp only
        by_cases h3 : f.reopenFails = true
        · rw [if_pos h3]; simp
        · rw [if_neg h3]
          by_cases h4 : f.openDailyFails = true
          · rw [if_pos h4]; simp
          · exfalso
            simp only [Bool.or_eq_true, not_or] at h1 h2
            rcases hf with h | h | h | h
            · exact h1.1 h
            · exact h2.1 h
            · exact h3 h
            · exact h4 h
  have hc : cronJob2 cfg f p = ((rotateFiles cfg f p).1, JobEnd.exited 0) := by
    rcases cronJob2_eq cfg f p with ⟨e, he, h⟩ | ⟨hn, _⟩
    · rw [hr.1] at he
      rw [h, ← Option.some.inj he]
    · rw [hr.1] at hn; exact absurd hn (by simp)
  have hfr := rotateFiles_frame cfg f p
  refine ⟨by rw [hc], by rw [hc]; exact hr.2, by rw [hc]; exact hfr.1,
    by rw [hc]; exact hfr.2.1, by rw [hc]; exact hfr.2.2, ?_⟩
  intro c hopen hact
  refine ⟨?_, ?_, ?_, ?_⟩
  · intro hcl
    rw [cronJob2_close_fails cfg f p (by rw [hcl]; rfl)]
    exact ⟨rfl, rfl⟩
  · intro hcl hren
    rw [cronJob2_rename_fails cfg f p (by rw [hcl, hopen]; rfl) (by rw [hren]; rfl)]
    exact ⟨rfl, rfl⟩
  · intro hcl hren hreo
    rw [cronJob2_reopen_fails cfg f p (by rw [hcl, hopen]; rfl) (by rw [hren, hact]; rfl) hreo]
    refine ⟨rfl, rename_file_old _ _ _, ?_⟩
    exact (rename_file_new _ (dailyFileName_ne_activePath cfg p.dt)).trans hact
  · intro hcl hren hreo hod
    have hp := cronJob2_past_reopen cfg f p c (by rw [hcl, hopen]; rfl) hact hren hreo
    refine ⟨?_, hp.1, hp.2⟩
    rw [cronJob2_openDaily_fails cfg f p (by rw [hcl, hopen]; rfl)
      (by rw [hren, hact]; rfl) hreo hod]

/-- Witness for C9 (amended): the invocation in which only the rename fails ends the
process with every file as it was; the one in which only the reopen fails ends it with
the day under the archive name and no active log. -/
theorem rotation_failure_exits_process_witness :
    renameFault.renameFails = true ∧ reopenFault.reopenFails = true ∧
    day1Proc.handleOpen = true ∧
    day1Proc.fs.file (activePath defaultConfig) =
      some [HeaderString, logRecord day1Start 13750 sampleDerived,
        logRecord day1Last 19972 sampleDerived] ∧
    (cronJob2 defaultConfig renameFault day1Proc).2 = JobEnd.exited 0 ∧
    (cronJob2 defaultConfig renameFault day1Proc).1.fs = day1Proc.fs ∧
    (cronJob2 defaultConfig reopenFault day1Proc).2 = JobEnd.exited 0 ∧
    (cronJob2 defaultConfig reopenFault day1Proc).1.charts = day1Proc.charts ∧
    (cronJob2 defaultConfig reopenFault day1Proc).1.fs.file (activePath defaultConfig) =
      none ∧
    (cronJob2 defaultConfig reopenFault day1Proc).1.fs.file
      (dailyFileName defaultConfig day1Proc.dt) =
        some [HeaderString, logRecord day1Start 13750 sampleDerived,
          logRecord day1Last 19972 sampleDerived] := by
  have h1 := rotation_failure_exits_process defaultConfig renameFault day1Proc
    (Or.inr (Or.inl rfl))
  have h2 := rotation_failure_exits_process defaultConfig reopenFault day1Proc
    (Or.inr (Or.inr (Or.inl rfl)))
  have h1c := (h1.2.2.2.2.2 _ (by decide) (by decide : day1Proc.fs.file
    (activePath defaultConfig) = some [HeaderString, logRecord day1Start 13750 sampleDerived,
      logRecord day1Last 19972 sampleDerived])).2.1 rfl rfl
  have h2c := (h2.2.2.2.2.2 _ (by decide) (by decide : day1Proc.fs.file
    (activePath defaultConfig) = some [HeaderString, logRecord day1Start 13750 sampleDerived,
      logRecord day1Last 19972 sampleDerived])).2.2.1 rfl rfl rfl
  exact ⟨rfl, rfl, by decide, by decide, h1.1, h1c.2, h2.1, h2.2.2.1, h2c.2.1, h2c.2.2⟩

end Infinitive
